import Mathlib

/-!
# aimjel/minecraft: packet encoders, status document and login/relay proxy

A shallow embedding of `packet/player_chat_message.go`, `packet/plugin_message.go`,
`status.go` and `proxy.go`.

Conventions.
* Go machine integers are `Int`; `int32` arithmetic is wrapped explicitly with `int32`.
* A Go byte slice is `Option (List Nat)`: `none` is the `nil` slice.
* A call that may abort is an `Outcome`: it either returns or panics.
* Code that lives outside the four embedded files (the packet `Writer`, `Conn`, the
  packet decoders, package `chat`, the standard library) is either a parameter or a
  small model whose doc comment says what it stands for.
-/

namespace Minecraft

/-! ## Errors and outcomes -/

/-- Go `error` values produced by the embedded code. -/
inductive GoError
  /-- the sentinel `NotImplemented` of package `packet` -/
  | NotImplemented
  /-- an error reported by a Connection (read on an exhausted or closed socket, ...) -/
  | conn (why : String)
  /-- an error reported by a packet decoder or by the standard library -/
  | lib (why : String)
  /-- the value of `fmt.Errorf(text)` -/
  | errorf (text : String)
  /-- the value of `fmt.Errorf("%v" ++ text, inner)` -/
  | errorfV (inner : GoError) (text : String)
  deriving DecidableEq

/-- The result of running a Go function: a normal return, or a `panic`. -/
inductive Outcome (α : Type)
  | returned (v : α)
  | panicked (msg : String)
  deriving DecidableEq

/-- The value of a Go `int32` expression whose mathematical value is `x`. -/
def int32 (x : Int) : Int := (x + 2147483648) % 4294967296 - 2147483648

/-- The values a Go `int32` can hold. -/
def InInt32 (x : Int) : Prop := -2147483648 ≤ x ∧ x ≤ 2147483647

instance (x : Int) : Decidable (InInt32 x) := by
  unfold InInt32; infer_instance

/-! ## The packet writer -/

/-- One call made on the packet `Writer`, with the argument it was given. -/
inductive WriteOp
  | uuid (v : List Nat)
  | varInt (v : Int)
  | bool (v : Bool)
  | fixedByteArray (v : Option (List Nat))
  | string (v : String)
  | int64 (v : Int)
  deriving DecidableEq

/-- The `Writer` is declared outside the embedded files; it is represented by the
sequence of calls made on it so far, oldest first. -/
abbrev Writer := List WriteOp

def Writer.UUID (w : Writer) (v : List Nat) : Writer := w ++ [WriteOp.uuid v]
def Writer.VarInt (w : Writer) (v : Int) : Writer := w ++ [WriteOp.varInt v]
def Writer.Bool (w : Writer) (v : Bool) : Writer := w ++ [WriteOp.bool v]
def Writer.FixedByteArray (w : Writer) (v : Option (List Nat)) : Writer :=
  w ++ [WriteOp.fixedByteArray v]
def Writer.String (w : Writer) (v : String) : Writer := w ++ [WriteOp.string v]
def Writer.Int64 (w : Writer) (v : Int) : Writer := w ++ [WriteOp.int64 v]

/-- The `Reader` is declared outside the embedded files; the bytes still to be read. -/
abbrev Reader := List Nat

/-- Package `chat` is outside the embedded files: `NewMessage` and `Message.String`
are parameters, over an arbitrary message type. -/
structure ChatPkg (Msg : Type) where
  NewMessage : String → Msg
  String : Msg → String

/-! ## packet/player_chat_message.go -/

structure PreviousMessage where
  MessageID : Int
  Signature : Option (List Nat)
  deriving DecidableEq

structure PlayerChatMessage where
  Sender : List Nat
  Index : Int
  MessageSignature : Option (List Nat)
  Message : String
  Timestamp : Int
  Salt : Int
  PreviousMessages : List PreviousMessage
  UnsignedContent : String
  FilterType : Int
  FilterTypeBits : List Int
  ChatType : Int
  NetworkName : String
  NetworkTargetName : String
  deriving DecidableEq

def PlayerChatMessage.ID (_m : PlayerChatMessage) : Int := 0x35

/-- `PlayerChatMessage.Decode`: the receiver is a pointer, so the packet after the call
is part of the result. -/
def PlayerChatMessage.Decode (m : PlayerChatMessage) (_r : Reader) :
    Outcome (PlayerChatMessage × Option GoError) :=
  Outcome.returned (m, some GoError.NotImplemented)

/-- The body of the loop over the previous messages in `PlayerChatMessage.Encode`. -/
def PlayerChatMessage.encodePrevious (w : Writer) (p : PreviousMessage) : Writer :=
  let w := w.VarInt (int32 (p.MessageID + 1))
  if int32 (p.MessageID + 1) = 0 then
    w.FixedByteArray p.Signature
  else
    w

/-- `PlayerChatMessage.Encode` with the operand of the `range` of line 57 spelt
`m.PreviousMessages`, the declared field whose length is written on the line before;
the source spells it `m.PreviousMesages`, see `PlayerChatMessage.EncodeAsWritten`.
Every other line is as in the source.  The results of the writer calls are discarded
by the source and the function returns `nil`. -/
def PlayerChatMessage.Encode {Msg : Type} (chat : ChatPkg Msg) (m : PlayerChatMessage)
    (w : Writer) : Writer × Option GoError :=
  let w := w.UUID m.Sender
  let w := w.VarInt m.Index
  let w :=
    match m.MessageSignature with
    | some sig => (w.Bool true).FixedByteArray (some sig)
    | none => w.Bool false
  let w := w.String m.Message
  let w := w.Int64 m.Timestamp
  let w := w.Int64 m.Salt
  let w := w.VarInt m.PreviousMessages.length
  let w := m.PreviousMessages.foldl PlayerChatMessage.encodePrevious w
  let w :=
    if m.UnsignedContent ≠ "" then
      let w := w.Bool true
      let msg := chat.NewMessage m.UnsignedContent
      let w := w.String (chat.String msg)
      let w := w.VarInt m.FilterType
      if m.FilterType = 2 then
        let w := w.VarInt m.FilterTypeBits.length
        m.FilterTypeBits.foldl (fun w b => w.Int64 b) w
      else
        w
    else
      w.Bool false
  let w := w.VarInt m.ChatType
  let n := chat.NewMessage m.NetworkName
  let w := w.String (chat.String n)
  let w :=
    if m.NetworkTargetName ≠ "" then
      let w := w.Bool true
      let t := chat.NewMessage m.NetworkTargetName
      w.String (chat.String t)
    else
      w.Bool false
  (w, none)

/-- What the Go compiler makes of a function: it builds, or it is rejected because a
selector names no field or method of its operand. -/
inductive Build (α : Type)
  | built (v : α)
  | undefinedSelector (name : String)
  deriving DecidableEq

/-- Selector resolution on a `PlayerChatMessage` for an operand of type
`[]PreviousMessage`: the struct declares one such field, `PreviousMessages`. -/
def PlayerChatMessage.selectPrevious (m : PlayerChatMessage) (selector : String) :
    Option (List PreviousMessage) :=
  if selector = "PreviousMessages" then some m.PreviousMessages else none

/-- The text of `PlayerChatMessage.Encode` with the operand of the `range` of line 57
given by its selector: when the selector names no field the function is rejected,
otherwise the loop ranges over the field it names. -/
def PlayerChatMessage.EncodeRanging {Msg : Type} (chat : ChatPkg Msg) (selector : String)
    (m : PlayerChatMessage) (w : Writer) : Build (Writer × Option GoError) :=
  match m.selectPrevious selector with
  | none => Build.undefinedSelector selector
  | some range =>
    let w := w.UUID m.Sender
    let w := w.VarInt m.Index
    let w :=
      match m.MessageSignature with
      | some sig => (w.Bool true).FixedByteArray (some sig)
      | none => w.Bool false
    let w := w.String m.Message
    let w := w.Int64 m.Timestamp
    let w := w.Int64 m.Salt
    let w := w.VarInt m.PreviousMessages.length
    let w := range.foldl PlayerChatMessage.encodePrevious w
    let w :=
      if m.UnsignedContent ≠ "" then
        let w := w.Bool true
        let msg := chat.NewMessage m.UnsignedContent
        let w := w.String (chat.String msg)
        let w := w.VarInt m.FilterType
        if m.FilterType = 2 then
          let w := w.VarInt m.FilterTypeBits.length
          m.FilterTypeBits.foldl (fun w b => w.Int64 b) w
        else
          w
      else
        w.Bool false
    let w := w.VarInt m.ChatType
    let n := chat.NewMessage m.NetworkName
    let w := w.String (chat.String n)
    let w :=
      if m.NetworkTargetName ≠ "" then
        let w := w.Bool true
        let t := chat.NewMessage m.NetworkTargetName
        w.String (chat.String t)
      else
        w.Bool false
    Build.built (w, none)

/-- `PlayerChatMessage.Encode` as the source writes it: line 57 is
`for _, p := range m.PreviousMesages`. -/
def PlayerChatMessage.EncodeAsWritten {Msg : Type} (chat : ChatPkg Msg)
    (m : PlayerChatMessage) (w : Writer) : Build (Writer × Option GoError) :=
  PlayerChatMessage.EncodeRanging chat "PreviousMesages" m w

/-! ## packet/plugin_message.go -/

structure PluginMessage where
  Channel : String
  Data : Option (List Nat)
  deriving DecidableEq

def PluginMessage.ID (_p : PluginMessage) : Int := 0x17

/-- `PluginMessage.Decode`: the body is `panic("implement me")`. -/
def PluginMessage.Decode (_p : PluginMessage) (_r : Reader) : Outcome (Option GoError) :=
  Outcome.panicked "implement me"

/-! ## The wire rules as the specification words them -/

/-- The `optionalField` rule: one boolean, then the payload only when it is true. -/
def optionalField (present : Bool) (payload : List WriteOp) : List WriteOp :=
  WriteOp.bool present :: (if present then payload else [])

/-- The PreviousMessage rule: the varint `messageID + 1`, then the signature exactly
when the original `messageID` is -1. -/
def previousMessageRule (p : PreviousMessage) : List WriteOp :=
  WriteOp.varInt (int32 (p.MessageID + 1)) ::
    (if p.MessageID = -1 then [WriteOp.fixedByteArray p.Signature] else [])

/-- What the source writes for one previous message, with the test it performs. -/
def previousMessageOps (p : PreviousMessage) : List WriteOp :=
  WriteOp.varInt (int32 (p.MessageID + 1)) ::
    (if int32 (p.MessageID + 1) = 0 then [WriteOp.fixedByteArray p.Signature] else [])

/-- The calls gated by the unsigned-content flag: the content, the filter type, and
the filter bits when the filter type is 2. -/
def unsignedContentPayload {Msg : Type} (chat : ChatPkg Msg) (m : PlayerChatMessage) :
    List WriteOp :=
  [WriteOp.string (chat.String (chat.NewMessage m.UnsignedContent)),
    WriteOp.varInt m.FilterType] ++
  (if m.FilterType = 2 then
    WriteOp.varInt m.FilterTypeBits.length :: m.FilterTypeBits.map WriteOp.int64
  else [])

/-- A chat package used for closed instances: messages are their text. -/
def plainChat : ChatPkg String := { NewMessage := fun s => s, String := fun s => s }

/-- A chat message with a non-nil signature of length zero. -/
def emptySignatureMessage : PlayerChatMessage :=
  { Sender := List.replicate 16 0, Index := 0, MessageSignature := some [],
    Message := "hi", Timestamp := 0, Salt := 0, PreviousMessages := [],
    UnsignedContent := "", FilterType := 0, FilterTypeBits := [], ChatType := 0,
    NetworkName := "n", NetworkTargetName := "" }

/-- A chat message with the two previous messages of the edge case: one with
MessageID -1 and one with MessageID 5. -/
def edgeCaseMessage : PlayerChatMessage :=
  { emptySignatureMessage with
    PreviousMessages := [{ MessageID := -1, Signature := some [1, 2] },
      { MessageID := 5, Signature := some [3] }] }

/-! ## status.go -/

structure VersionInfo where
  Name : String
  Protocol : Int
  deriving DecidableEq

structure SampleEntry where
  Name : String
  Id : String
  deriving DecidableEq

structure PlayersInfo where
  Max : Int
  Online : Int
  Sample : Option (List SampleEntry)
  deriving DecidableEq

/-- The struct `status`; `Msg` stands for `chat.Message`. -/
structure status (Msg : Type) where
  Version : VersionInfo
  Players : PlayersInfo
  Description : Msg
  Favicon : String

/-- What `status.go` takes from outside the embedded files: `chat.NewMessage`, the
serialization done by `encoding/json` (which may fail), the bytes `loadIcon` leaves in
its buffer (none when `server-icon.png` is missing or is not a PNG), and
`base64.StdEncoding.EncodeToString`. -/
structure StatusEnv (Msg : Type) where
  NewMessage : String → Msg
  marshal : status Msg → Option (List Nat)
  icon : List Nat
  base64 : List Nat → String

/-- The struct `Status`: the buffer the encoder writes to, and the status value. -/
structure Status (Msg : Type) where
  buf : List Nat
  s : status Msg

/-- `json.Encoder.Encode` on a buffer: the serialization followed by a newline is
appended; when the serialization fails nothing is written. -/
def Encoder.Encode {Msg : Type} (env : StatusEnv Msg) (buf : List Nat) (v : status Msg) :
    List Nat × Option GoError :=
  match env.marshal v with
  | some doc => (buf ++ doc ++ [10], none)
  | none => (buf, some (GoError.lib "json"))

def versionName (protocol : Int) : String :=
  if protocol = 757 then "1.18.1"
  else if protocol = 756 then "1.17.1"
  else if protocol = 755 then "1.17"
  else ""

/-- `Status.loadIcon`: the re-encoded icon, if any, is written to the buffer. -/
def Status.loadIcon {Msg : Type} (env : StatusEnv Msg) (buf : List Nat) : List Nat :=
  buf ++ env.icon

def NewStatus {Msg : Type} (env : StatusEnv Msg) (protocol max : Int) (desc : String) :
    Status Msg :=
  let s : status Msg :=
    { Version := { Name := versionName protocol, Protocol := protocol },
      Players := { Max := max, Online := 0, Sample := none },
      Description := env.NewMessage desc,
      Favicon := "" }
  let buf : List Nat := []
  let buf := (Encoder.Encode env buf s).1
  let size : Int := buf.length + 34
  let b := Status.loadIcon env []
  let s :=
    if size + b.length < 32767 then
      { s with Favicon := "data:image/png;base64," ++ env.base64 b }
    else
      s
  let buf := (Encoder.Encode env buf s).1
  { buf := buf, s := s }

def Status.json {Msg : Type} (st : Status Msg) : List Nat := st.buf

/-- The status value before the favicon is decided: what the first `Encode` sees. -/
def initialStatus {Msg : Type} (env : StatusEnv Msg) (protocol max : Int) (desc : String) :
    status Msg :=
  { Version := { Name := versionName protocol, Protocol := protocol },
    Players := { Max := max, Online := 0, Sample := none },
    Description := env.NewMessage desc,
    Favicon := "" }

/-- One serialized document as the encoder emits it. -/
def jsonDocument {Msg : Type} (env : StatusEnv Msg) (v : status Msg) : List Nat :=
  (Encoder.Encode env [] v).1

/-- A stand-in environment for closed instances: messages are their text, there is no
icon file, and the serialization renders the document the way `encoding/json` lays out
the struct, without escaping. -/
def sampleStatusEnv : StatusEnv String :=
  { NewMessage := fun s => s,
    marshal := fun v =>
      some ((String.toList
        ("\x7b\"version\":\x7b\"name\":\"" ++ v.Version.Name ++
          "\",\"protocol\":" ++ toString v.Version.Protocol ++
          "\x7d,\"players\":\x7b\"max\":" ++ toString v.Players.Max ++
          ",\"online\":" ++ toString v.Players.Online ++
          ",\"sample\":null\x7d,\"description\":\x7b\"text\":\"" ++ v.Description ++
          "\"\x7d,\"favicon\":\"" ++ v.Favicon ++ "\"\x7d")).map Char.toNat),
    icon := [],
    base64 := fun _ => "" }

/-! ## Packets and Connections

The packet types other than the two above, the packet decoders and `Conn` are declared
outside the embedded files. -/

/-- The raw packet `packet.Unknown` that `ReadPacket` yields: an ID and a payload. -/
structure Unknown where
  id : Int
  Payload : List Nat
  deriving DecidableEq

/-- Modelled from the spec: `Handshake{protocolVersion, serverAddress, serverPort,
nextState}`; the struct is declared outside the embedded files. -/
structure Handshake where
  ProtocolVersion : Int
  ServerAddress : String
  ServerPort : Nat
  NextState : Int
  deriving DecidableEq

/-- Modelled from the spec: one profile property; the struct is declared outside the
embedded files and is only copied by the code embedded here. -/
structure Property where
  Name : String
  Value : String
  Signature : String
  deriving DecidableEq

/-- Modelled from the spec: `LoginStart{name, uuid}`. -/
structure LoginStart where
  Name : String
  UUID : List Nat
  deriving DecidableEq

/-- Modelled from the spec: `LoginSuccess{uuid, name, properties[]}`. -/
structure LoginSuccess where
  UUID : List Nat
  Name : String
  Properties : List Property
  deriving DecidableEq

/-- Modelled from the spec: `SetCompression{threshold int32}`. -/
structure SetCompression where
  Threshold : Int
  deriving DecidableEq

/-- A value passed to `SendPacket`. -/
inductive Packet
  | handshake (p : Handshake)
  | loginStart (p : LoginStart)
  | loginSuccess (p : LoginSuccess)
  | setCompression (p : SetCompression)
  | unknown (p : Unknown)
  deriving DecidableEq

/-- The `Decode` methods of the four packets read by the proxy; they are declared
outside the embedded files and are parameters. -/
structure Codec where
  Handshake : List Nat → Except GoError Handshake
  LoginStart : List Nat → Except GoError LoginStart
  LoginSuccess : List Nat → Except GoError LoginSuccess
  SetCompression : List Nat → Except GoError SetCompression

inductive Pool
  | ServerBoundPool
  deriving DecidableEq

/-- Modelled from the spec: a Connection owns one socket, a compression threshold set
by `enableCompression`, a packet pool and the session identity.  The socket is
represented by the frames the peer delivers (`incoming`, oldest first, after which
reads fail), the packets sent so far (`sent`, oldest first) and whether it was
closed. -/
structure Conn where
  incoming : List Unknown
  sent : List Packet
  closed : Bool
  compression : Option Int
  Pool : Option Pool
  name : String
  uuid : List Nat
  properties : List Property
  deriving DecidableEq

/-- Modelled from the spec: `readPacket` returns one full frame as an opaque packet
with its numeric ID and raw payload, or fails (closed connection, no further frame). -/
def Conn.ReadPacket (c : Conn) : Except GoError Unknown × Conn :=
  if c.closed then
    (Except.error (GoError.conn "use of closed network connection"), c)
  else
    match c.incoming with
    | [] => (Except.error (GoError.conn "EOF"), c)
    | pk :: rest => (Except.ok pk, { c with incoming := rest })

/-- Modelled from the spec: `DecodePacket` reads one frame and decodes its payload into
the packet passed by the caller. -/
def Conn.DecodePacket {α : Type} (c : Conn) (decode : List Nat → Except GoError α) :
    Except GoError α × Conn :=
  match c.ReadPacket with
  | (Except.error err, c) => (Except.error err, c)
  | (Except.ok pk, c) => (decode pk.Payload, c)

/-- Modelled from the spec: `sendPacket` encodes and writes one packet; it fails on a
closed connection. -/
def Conn.SendPacket (c : Conn) (pk : Packet) : Option GoError × Conn :=
  if c.closed then
    (some (GoError.conn "use of closed network connection"), c)
  else
    (none, { c with sent := c.sent ++ [pk] })

/-- Modelled from the spec: `enableCompression(threshold)` switches the framing mode
for all subsequent sends and receives. -/
def Conn.enableCompression (c : Conn) (threshold : Int) : Conn :=
  { c with compression := some threshold }

/-- Modelled from the spec: `close(err)` is idempotent and releases the socket. -/
def Conn.Close (c : Conn) (_err : Option GoError) : Conn :=
  { c with closed := true }

/-! ## proxy.go -/

/-- The struct `ProxyConn` once the upstream has been dialled. -/
structure ProxyConn where
  dialConn : Conn
  conn : Conn
  targetAddr : String
  deriving DecidableEq

/-- `ProxyConn.SendServerPacket`. -/
def ProxyConn.SendServerPacket (pc : ProxyConn) (pk : Packet) : Option GoError × ProxyConn :=
  let r := pc.dialConn.SendPacket pk
  (r.1, { pc with dialConn := r.2 })

/-- `ProxyConn.SendClientPacket`. -/
def ProxyConn.SendClientPacket (pc : ProxyConn) (pk : Packet) : Option GoError × ProxyConn :=
  let r := pc.conn.SendPacket pk
  (r.1, { pc with conn := r.2 })

/-- A write `OnReceive` makes through the `*ProxyConn` it is handed: a call of
`SendServerPacket` or of `SendClientPacket`, the two exported methods of `ProxyConn`
that write to a Connection. -/
inductive HookSend
  | server (pk : Packet)
  | client (pk : Packet)
  deriving DecidableEq

/-- The effect of one such write on the pair of Connections. -/
def ProxyConn.hookSend (pc : ProxyConn) : HookSend → ProxyConn
  | HookSend.server pk => (pc.SendServerPacket pk).2
  | HookSend.client pk => (pc.SendClientPacket pk).2

/-- What a call of `OnReceive` does: the boolean it returns, the private state of the
closure after the call, and the writes it made through the `*ProxyConn`, in order. -/
structure HookResult (σ : Type) where
  keep : Bool
  state : σ
  sends : List HookSend
  deriving DecidableEq

/-- The struct `ProxyConfig`.  `Msg` stands for `chat.Message`.  `OnReceive` is a Go
closure: a function of its private state `σ`, of the pair of Connections behind the
pointer it is handed, and of the packet and the `fromServer` flag. -/
structure ProxyConfig (Msg σ : Type) where
  Status : Option (Status Msg)
  OnReceive : Option (σ → ProxyConn → Packet → Bool → HookResult σ)
  canJoin : Bool

/-- One call of `OnReceive`: the private state and the three arguments it was called
with, and what the call did. -/
structure HookCall (σ : Type) where
  state : σ
  pc : ProxyConn
  pk : Packet
  fromServer : Bool
  result : HookResult σ
  deriving DecidableEq

/-- A session: the pair of Connections, the private state of `OnReceive`, and the
calls of `OnReceive` made so far, oldest first. -/
structure Session (σ : Type) where
  pc : ProxyConn
  hook : σ
  calls : List (HookCall σ)

/-- The call `cfg.OnReceive(pc, pk, fromServer)` in a session: the closure runs on the
current private state and Connections, its writes reach the Connections, and the call
is recorded with the very arguments it was given and the result it gave.  The value is
the boolean returned and the session after the call. -/
def Session.OnReceive {σ : Type} (onReceive : σ → ProxyConn → Packet → Bool → HookResult σ)
    (s : Session σ) (pk : Packet) (fromServer : Bool) : Bool × Session σ :=
  let r := onReceive s.hook s.pc pk fromServer
  (r.keep,
    { pc := r.sends.foldl ProxyConn.hookSend s.pc,
      hook := r.state,
      calls := s.calls ++
        [{ state := s.hook, pc := s.pc, pk := pk, fromServer := fromServer, result := r }] })

set_option linter.unusedVariables false in
/-- The loop in `handleLogin` that reads from the upstream. -/
def handleLoginLoop (codec : Codec) (pc : ProxyConn) : ProxyConn × Option GoError :=
  match h : pc.dialConn.ReadPacket with
  | (Except.error err, d) => ({ pc with dialConn := d }, some err)
  | (Except.ok pk, d) =>
    let pc1 : ProxyConn := { pc with dialConn := d }
    if pk.id = 0x01 then
      let pc2 : ProxyConn := { pc1 with dialConn := pc1.dialConn.Close none }
      let pc3 : ProxyConn := { pc2 with conn := pc2.conn.Close none }
      (pc3, some (GoError.errorf "online mode is not supported"))
    else if pk.id = 0x02 then
      match codec.LoginSuccess pk.Payload with
      | Except.error err => (pc1, some (GoError.errorfV err " decoding login success packet"))
      | Except.ok lgSuc =>
        let pc2 : ProxyConn :=
          { pc1 with dialConn := { pc1.dialConn with
              name := lgSuc.Name, uuid := lgSuc.UUID, properties := lgSuc.Properties } }
        let pc3 : ProxyConn :=
          { pc2 with conn := { pc2.conn with
              name := lgSuc.Name, uuid := lgSuc.UUID, properties := lgSuc.Properties } }
        let pc4 : ProxyConn :=
          { pc3 with conn := (pc3.conn.SendPacket (Packet.loginSuccess lgSuc)).2 }
        (pc4, none)
    else if pk.id = 0x03 then
      match codec.SetCompression pk.Payload with
      | Except.error err =>
        (pc1, some (GoError.errorfV err " decoding compression threshold packet"))
      | Except.ok com =>
        let pc2 : ProxyConn :=
          { pc1 with conn := (pc1.conn.SendPacket (Packet.setCompression com)).2 }
        let pc3 : ProxyConn :=
          { pc2 with dialConn := pc2.dialConn.enableCompression com.Threshold }
        let pc4 : ProxyConn := { pc3 with conn := pc3.conn.enableCompression com.Threshold }
        handleLoginLoop codec pc4
    else
      handleLoginLoop codec pc1
termination_by pc.dialConn.incoming.length
decreasing_by
  all_goals
    simp_wf
    unfold Conn.ReadPacket at h
    split at h
    · simp at h
    · split at h
      · simp at h
      · rename_i hin
        simp only [Prod.mk.injEq, Except.ok.injEq] at h
        obtain ⟨_, hd⟩ := h
        subst hd
        simp [Conn.enableCompression, hin]

def handleLogin (codec : Codec) (pc : ProxyConn) : ProxyConn × Option GoError :=
  match pc.conn.DecodePacket codec.LoginStart with
  | (Except.error err, c) => ({ pc with conn := c }, some err)
  | (Except.ok ls, c) =>
    let pc1 : ProxyConn := { pc with conn := c }
    let pc2 : ProxyConn :=
      { pc1 with dialConn := (pc1.dialConn.SendPacket (Packet.loginStart ls)).2 }
    handleLoginLoop codec pc2

/-- How one pass through the body of a `for` loop ends: with the next pass
(`continue`, or the end of the body) or with `return`. -/
inductive LoopStep (α : Type)
  | next (s : α)
  | done (s : α)

/-- One pass of the loop of the goroutine in `proxy`: server to client. -/
def serverToClientStep {Msg σ : Type} (cfg : ProxyConfig Msg σ) (s : Session σ) :
    LoopStep (Session σ) :=
  match s.pc.dialConn.ReadPacket with
  | (Except.error _, d) => LoopStep.done { s with pc := { s.pc with dialConn := d } }
  | (Except.ok raw, d) =>
    let pk := Packet.unknown raw
    let s1 : Session σ := { s with pc := { s.pc with dialConn := d } }
    match cfg.OnReceive with
    | some onReceive =>
      let r := s1.OnReceive onReceive pk true
      let s2 := r.2
      if !r.1 then
        LoopStep.next s2
      else
        match s2.pc.conn.SendPacket pk with
        | (some _, c) => LoopStep.done { s2 with pc := { s2.pc with conn := c } }
        | (none, c) => LoopStep.next { s2 with pc := { s2.pc with conn := c } }
    | none =>
      match s1.pc.conn.SendPacket pk with
      | (some _, c) => LoopStep.done { s1 with pc := { s1.pc with conn := c } }
      | (none, c) => LoopStep.next { s1 with pc := { s1.pc with conn := c } }

/-- One pass of the loop that `proxy` runs in its caller: client to server. -/
def clientToServerStep {Msg σ : Type} (cfg : ProxyConfig Msg σ) (s : Session σ) :
    LoopStep (Session σ) :=
  match s.pc.conn.ReadPacket with
  | (Except.error _, c) => LoopStep.done { s with pc := { s.pc with conn := c } }
  | (Except.ok raw, c) =>
    let pk := Packet.unknown raw
    let s1 : Session σ := { s with pc := { s.pc with conn := c } }
    match cfg.OnReceive with
    | some onReceive =>
      let r := s1.OnReceive onReceive pk false
      let s2 := r.2
      if !r.1 then
        LoopStep.next s2
      else
        match s2.pc.dialConn.SendPacket pk with
        | (some _, d) => LoopStep.done { s2 with pc := { s2.pc with dialConn := d } }
        | (none, d) => LoopStep.next { s2 with pc := { s2.pc with dialConn := d } }
    | none =>
      match s1.pc.dialConn.SendPacket pk with
      | (some _, d) => LoopStep.done { s1 with pc := { s1.pc with dialConn := d } }
      | (none, d) => LoopStep.next { s1 with pc := { s1.pc with dialConn := d } }

/-- The two loops of `proxy`. -/
inductive Turn
  | client
  | server
  deriving DecidableEq

/-- A relay in progress: the session, and which of the two loops have not returned. -/
structure Relay (σ : Type) where
  s : Session σ
  clientLoop : Bool
  serverLoop : Bool

/-- The loop named by the turn makes one pass, if it has not returned yet. -/
def relayStep {Msg σ : Type} (cfg : ProxyConfig Msg σ) (r : Relay σ) (t : Turn) : Relay σ :=
  match t with
  | Turn.client =>
    if r.clientLoop then
      match clientToServerStep cfg r.s with
      | LoopStep.next s => { r with s := s }
      | LoopStep.done s => { r with s := s, clientLoop := false }
    else r
  | Turn.server =>
    if r.serverLoop then
      match serverToClientStep cfg r.s with
      | LoopStep.next s => { r with s := s }
      | LoopStep.done s => { r with s := s, serverLoop := false }
    else r

/-- The client-to-server loop running alone until it returns.  Every pass that does
not return consumes one incoming frame of the client, and `OnReceive` cannot add
frames, so `fuel` passes suffice when `fuel` exceeds the number of those frames. -/
def clientLoopAlone {Msg σ : Type} (cfg : ProxyConfig Msg σ) : Nat → Relay σ → Relay σ
  | 0, r => r
  | fuel + 1, r =>
    if r.clientLoop then clientLoopAlone cfg fuel (relayStep cfg r Turn.client) else r

/-- The server-to-client loop running alone until it returns. -/
def serverLoopAlone {Msg σ : Type} (cfg : ProxyConfig Msg σ) : Nat → Relay σ → Relay σ
  | 0, r => r
  | fuel + 1, r =>
    if r.serverLoop then serverLoopAlone cfg fuel (relayStep cfg r Turn.server) else r

/-- The two loops interleaved as the schedule says, up to the return of `proxy`, that
is of the client-to-server loop; when the schedule is used up first, that loop makes
its remaining passes alone. -/
def proxyRun {Msg σ : Type} (cfg : ProxyConfig Msg σ) : List Turn → Relay σ → Relay σ
  | [], r => clientLoopAlone cfg (r.s.pc.conn.incoming.length + 1) r
  | t :: sched, r =>
    if r.clientLoop then proxyRun cfg sched (relayStep cfg r t) else r

/-- `ProxyConfig.proxy`: the state when the call returns.  The goroutine it started may
still be running (`serverLoop`). -/
def proxy {Msg σ : Type} (cfg : ProxyConfig Msg σ) (sched : List Turn) (s : Session σ) :
    Relay σ :=
  let s1 : Session σ :=
    { s with pc := { s.pc with conn := { s.pc.conn with Pool := some Pool.ServerBoundPool } } }
  proxyRun cfg sched { s := s1, clientLoop := true, serverLoop := true }

/-- What `start` takes from outside the embedded files: the packet decoders, the
result of `net.Dial` (none when it fails, otherwise the Connection to the upstream with
the frames the upstream will deliver), and `Status.handleStatus`. -/
structure Env (Msg : Type) where
  codec : Codec
  dial : String → Option Conn
  handleStatus : Status Msg → Conn → Option GoError × Conn

/-- The state when `start` returns: the client Connection, the Connection to the
upstream if it was dialled, the error `handleLogin` returned if it was called and
failed, the state and calls of `OnReceive`, and whether the goroutine of `proxy` is
still running. -/
structure Started (σ : Type) where
  conn : Conn
  dialConn : Option Conn
  loginErr : Option GoError
  hook : σ
  calls : List (HookCall σ)
  goroutine : Bool

/-- `ProxyConfig.start`, on the Connection and target address `handleConn` puts in the
`ProxyConn`. -/
def start {Msg σ : Type} (env : Env Msg) (cfg : ProxyConfig Msg σ) (sched : List Turn)
    (hook : σ) (conn : Conn) (targetAddr : String) : Started σ :=
  match conn.DecodePacket env.codec.Handshake with
  | (Except.error _, c) =>
    { conn := c, dialConn := none, loginErr := none, hook := hook, calls := [],
      goroutine := false }
  | (Except.ok hs, c) =>
    if hs.NextState = 0x01 then
      match cfg.Status with
      | some st =>
        let c1 := (env.handleStatus st c).2
        { conn := c1.Close none, dialConn := none, loginErr := none, hook := hook,
          calls := [], goroutine := false }
      | none =>
        match env.dial targetAddr with
        | none =>
          { conn := c, dialConn := none, loginErr := none, hook := hook, calls := [],
            goroutine := false }
        | some dialC =>
          let d := (dialC.SendPacket (Packet.handshake hs)).2
          let r := proxy cfg sched
            { pc := { dialConn := d, conn := c, targetAddr := targetAddr },
              hook := hook, calls := [] }
          { conn := r.s.pc.conn.Close none, dialConn := some (r.s.pc.dialConn.Close none),
            loginErr := none, hook := r.s.hook, calls := r.s.calls,
            goroutine := r.serverLoop }
    else if hs.NextState = 0x02 then
      match env.dial targetAddr with
      | none =>
        { conn := c, dialConn := none, loginErr := none, hook := hook, calls := [],
          goroutine := false }
      | some dialC =>
        let d := (dialC.SendPacket (Packet.handshake hs)).2
        match handleLogin env.codec { dialConn := d, conn := c, targetAddr := targetAddr } with
        | (pc, some err) =>
          { conn := pc.conn, dialConn := some pc.dialConn, loginErr := some err,
            hook := hook, calls := [], goroutine := false }
        | (pc, none) =>
          let r := proxy cfg sched { pc := pc, hook := hook, calls := [] }
          { conn := r.s.pc.conn, dialConn := some r.s.pc.dialConn, loginErr := none,
            hook := r.s.hook, calls := r.s.calls, goroutine := r.serverLoop }
    else
      { conn := c, dialConn := none, loginErr := none, hook := hook, calls := [],
        goroutine := false }

/-! ## Closed instances -/

/-- A stand-in for the packet decoders: a payload of one byte `b` decodes to the
handshake with next state `b`, to the login start of the player Alice whose UUID
repeats `b`, to the login success of that player, or to the compression threshold `b`;
any other payload is rejected. -/
def sampleCodec : Codec :=
  { Handshake := fun bs =>
      match bs with
      | [b] => Except.ok { ProtocolVersion := 757, ServerAddress := "localhost",
                           ServerPort := 25565, NextState := b }
      | _ => Except.error (GoError.lib "EOF"),
    LoginStart := fun bs =>
      match bs with
      | [b] => Except.ok { Name := "Alice", UUID := List.replicate 16 b }
      | _ => Except.error (GoError.lib "EOF"),
    LoginSuccess := fun bs =>
      match bs with
      | [b] => Except.ok { UUID := List.replicate 16 b, Name := "Alice", Properties := [] }
      | _ => Except.error (GoError.lib "EOF"),
    SetCompression := fun bs =>
      match bs with
      | [b] => Except.ok { Threshold := b }
      | _ => Except.error (GoError.lib "EOF") }

/-- A fresh Connection on which the peer delivers the given frames. -/
def freshConn (incoming : List Unknown) : Conn :=
  { incoming := incoming, sent := [], closed := false, compression := none, Pool := none,
    name := "", uuid := [], properties := [] }

/-- The pair of Connections of a session in which the client delivers one LoginStart
frame and the upstream delivers the given frames. -/
def loginSession (upstream : List Unknown) : ProxyConn :=
  { dialConn := freshConn upstream,
    conn := freshConn [{ id := 0, Payload := [65] }],
    targetAddr := "upstream:25565" }

/-- The stand-in environment of a mock upstream that accepts the dial and delivers the
given frames; no status override is served by it. -/
def sampleEnv (upstream : List Unknown) : Env String :=
  { codec := sampleCodec,
    dial := fun _ => some (freshConn upstream),
    handleStatus := fun _ c => (none, c) }

/-- A configuration without status override and without `OnReceive`. -/
def plainConfig : ProxyConfig String Unit :=
  { Status := none, OnReceive := none, canJoin := false }

/-- A configuration whose `OnReceive` drops every plugin message (ID 0x17), writes
nothing itself, and counts the packets it has seen. -/
def vetoConfig : ProxyConfig String Nat :=
  { Status := none,
    OnReceive := some (fun n _ pk _ =>
      match pk with
      | Packet.unknown raw => { keep := decide (raw.id ≠ 0x17), state := n + 1, sends := [] }
      | _ => { keep := true, state := n + 1, sends := [] }),
    canJoin := false }

/-- A session for the veto scenario: each side delivers a plugin message and then one
other packet. -/
def vetoSession : Session Nat :=
  { pc :=
      { dialConn := freshConn [{ id := 0x17, Payload := [3] }, { id := 9, Payload := [4] }],
        conn := freshConn [{ id := 0x17, Payload := [1] }, { id := 5, Payload := [2] }],
        targetAddr := "upstream:25565" },
    hook := 0,
    calls := [] }

/-- A configuration whose `OnReceive` replaces plugin messages: it returns false for a
plugin message (ID 0x17) and itself sends a plugin message with payload 0 onwards,
with `SendClientPacket` when the packet came from the server and `SendServerPacket`
otherwise; every other packet it keeps. -/
def replaceConfig : ProxyConfig String Unit :=
  { Status := none,
    OnReceive := some (fun st _ pk fromServer =>
      match pk with
      | Packet.unknown raw =>
        if raw.id = 0x17 then
          { keep := false, state := st,
            sends := [if fromServer then
                HookSend.client (Packet.unknown { id := 0x17, Payload := [0] })
              else
                HookSend.server (Packet.unknown { id := 0x17, Payload := [0] })] }
        else
          { keep := true, state := st, sends := [] }
      | _ => { keep := true, state := st, sends := [] }),
    canJoin := false }

/-- A session in which the client delivers a plugin message and then one other packet,
and the upstream delivers nothing. -/
def replaceSession : Session Unit :=
  { pc :=
      { dialConn := freshConn [],
        conn := freshConn [{ id := 0x17, Payload := [1] }, { id := 5, Payload := [2] }],
        targetAddr := "upstream:25565" },
    hook := (),
    calls := [] }

/-! ## The relay property as the specification words it -/

/-- The packets `OnReceive` was called with in one direction, in call order. -/
def offered {σ : Type} (calls : List (HookCall σ)) (fromServer : Bool) : List Packet :=
  (calls.filter (fun c => c.fromServer == fromServer)).map (fun c => c.pk)

/-- The packets for which `OnReceive` returned true in one direction, in call order. -/
def kept {σ : Type} (calls : List (HookCall σ)) (fromServer : Bool) : List Packet :=
  ((calls.filter (fun c => c.fromServer == fromServer)).filter (fun c => c.result.keep)).map
    (fun c => c.pk)

/-- The recorded calls are the run of the closure `f` from the private state `st` to
the private state `fin`: each call started in the state the one before it left, what
is recorded as its result is the value of `f` at the recorded arguments, and `fin` is
the state the last call left. -/
def Replayed {σ : Type} (f : σ → ProxyConn → Packet → Bool → HookResult σ) :
    σ → List (HookCall σ) → σ → Prop
  | st, [], fin => fin = st
  | st, c :: cs, fin =>
    c.state = st ∧ c.result = f c.state c.pc c.pk c.fromServer ∧
      Replayed f c.result.state cs fin

/-- The closure `OnReceive` of the configuration, when there is one, makes no write
through the `*ProxyConn` it is handed. -/
def SendsNothing {Msg σ : Type} (cfg : ProxyConfig Msg σ) : Prop :=
  ∀ f, cfg.OnReceive = some f →
    ∀ (st : σ) (pc : ProxyConn) (pk : Packet) (fromServer : Bool),
      (f st pc pk fromServer).sends = []

/-- The relay property between the session `s0` at the start of the relay and a later
state `r`: in each direction the frames read so far are a prefix of what the source
delivers; `OnReceive` (when set) has run exactly the recorded calls, one per frame
read, with `fromServer` true for the frames read from the server Connection and false
for those read from the client; and the packets sent on the destination since the
start are the frames read for which it returned true (all frames read when it is nil),
in reading order; a loop that has returned has read every frame of its source. -/
def Relayed {Msg σ : Type} (cfg : ProxyConfig Msg σ) (s0 : Session σ) (r : Relay σ) : Prop :=
  ∃ (readC readS : List Unknown) (calls : List (HookCall σ)),
    s0.pc.conn.incoming = readC ++ r.s.pc.conn.incoming ∧
    s0.pc.dialConn.incoming = readS ++ r.s.pc.dialConn.incoming ∧
    r.s.calls = s0.calls ++ calls ∧
    (match cfg.OnReceive with
     | none =>
       calls = [] ∧ r.s.hook = s0.hook ∧
       r.s.pc.dialConn.sent = s0.pc.dialConn.sent ++ readC.map Packet.unknown ∧
       r.s.pc.conn.sent = s0.pc.conn.sent ++ readS.map Packet.unknown
     | some f =>
       Replayed f s0.hook calls r.s.hook ∧
       offered calls false = readC.map Packet.unknown ∧
       offered calls true = readS.map Packet.unknown ∧
       r.s.pc.dialConn.sent = s0.pc.dialConn.sent ++ kept calls false ∧
       r.s.pc.conn.sent = s0.pc.conn.sent ++ kept calls true) ∧
    (r.clientLoop = false → r.s.pc.conn.incoming = []) ∧
    (r.serverLoop = false → r.s.pc.dialConn.incoming = [])

/-! ## Lemmas on the encoder -/

theorem int32_succ_eq_zero_iff (x : Int) (h : InInt32 x) : int32 (x + 1) = 0 ↔ x = -1 := by
  unfold InInt32 at h
  unfold int32
  constructor
  · intro h0
    omega
  · intro h0
    subst h0
    decide

theorem encodePrevious_eq (w : Writer) (p : PreviousMessage) :
    PlayerChatMessage.encodePrevious w p = w ++ previousMessageOps p := by
  unfold PlayerChatMessage.encodePrevious previousMessageOps Writer.VarInt
    Writer.FixedByteArray
  by_cases h : int32 (p.MessageID + 1) = 0 <;> simp [h]

theorem foldl_encodePrevious (ps : List PreviousMessage) (w : Writer) :
    ps.foldl PlayerChatMessage.encodePrevious w = w ++ ps.flatMap previousMessageOps := by
  induction ps generalizing w with
  | nil => simp
  | cons p ps ih =>
    simp only [List.foldl_cons, List.flatMap_cons, ih, encodePrevious_eq, List.append_assoc]

theorem previousMessageOps_eq_rule (p : PreviousMessage) (h : InInt32 p.MessageID) :
    previousMessageOps p = previousMessageRule p := by
  unfold previousMessageOps previousMessageRule
  by_cases h1 : p.MessageID = -1
  · have h0 : int32 (p.MessageID + 1) = 0 := (int32_succ_eq_zero_iff p.MessageID h).2 h1
    rw [if_pos h0, if_pos h1]
  · have h2 : ¬ int32 (p.MessageID + 1) = 0 := fun h0 =>
      h1 ((int32_succ_eq_zero_iff p.MessageID h).1 h0)
    simp [h1, h2]

theorem flatMap_ops_eq_rule (ps : List PreviousMessage)
    (h : ∀ p ∈ ps, InInt32 p.MessageID) :
    ps.flatMap previousMessageOps = ps.flatMap previousMessageRule := by
  induction ps with
  | nil => rfl
  | cons p ps ih =>
    simp only [List.flatMap_cons]
    rw [previousMessageOps_eq_rule p (h p (List.mem_cons_self _ _)),
      ih (fun q hq => h q (List.mem_cons_of_mem _ hq))]

theorem foldl_int64 (bs : List Int) (w : Writer) :
    bs.foldl (fun w b => Writer.Int64 w b) w = w ++ bs.map WriteOp.int64 := by
  induction bs generalizing w with
  | nil => simp
  | cons b bs ih =>
    simp only [List.foldl_cons, List.map_cons, ih]
    simp [Writer.Int64]

/-- The whole trace of `Encode`, segment by segment. -/
theorem Encode_trace {Msg : Type} (chat : ChatPkg Msg) (m : PlayerChatMessage) (w : Writer) :
    (PlayerChatMessage.Encode chat m w).1 =
      w ++ ([WriteOp.uuid m.Sender, WriteOp.varInt m.Index] ++
        optionalField m.MessageSignature.isSome [WriteOp.fixedByteArray m.MessageSignature] ++
        [WriteOp.string m.Message, WriteOp.int64 m.Timestamp, WriteOp.int64 m.Salt,
          WriteOp.varInt m.PreviousMessages.length] ++
        m.PreviousMessages.flatMap previousMessageOps ++
        optionalField (decide (m.UnsignedContent ≠ "")) (unsignedContentPayload chat m) ++
        [WriteOp.varInt m.ChatType,
          WriteOp.string (chat.String (chat.NewMessage m.NetworkName))] ++
        optionalField (decide (m.NetworkTargetName ≠ ""))
          [WriteOp.string (chat.String (chat.NewMessage m.NetworkTargetName))]) := by
  unfold PlayerChatMessage.Encode
  simp only [foldl_encodePrevious, foldl_int64]
  unfold optionalField unsignedContentPayload Writer.UUID Writer.VarInt Writer.Bool
    Writer.FixedByteArray Writer.String Writer.Int64
  cases hsig : m.MessageSignature <;>
  by_cases hu : m.UnsignedContent = "" <;>
  by_cases hf : m.FilterType = 2 <;>
  by_cases ht : m.NetworkTargetName = "" <;>
  simp [hu, hf, ht]


theorem NewStatus_buf {Msg : Type} (env : StatusEnv Msg) (protocol max : Int) (desc : String) :
    (NewStatus env protocol max desc).json =
      jsonDocument env (initialStatus env protocol max desc) ++
        jsonDocument env (NewStatus env protocol max desc).s := by
  unfold NewStatus Status.json jsonDocument initialStatus Encoder.Encode
  simp only []
  split <;> split <;> simp_all

/-! ## Lemmas on the Connections -/

theorem ReadPacket_nil (c : Conn) (hc : c.closed = false) (hin : c.incoming = []) :
    c.ReadPacket = (Except.error (GoError.conn "EOF"), c) := by
  unfold Conn.ReadPacket
  simp [hc, hin]

theorem ReadPacket_cons (c : Conn) (pk : Unknown) (rest : List Unknown)
    (hc : c.closed = false) (hin : c.incoming = pk :: rest) :
    c.ReadPacket = (Except.ok pk, { c with incoming := rest }) := by
  unfold Conn.ReadPacket
  simp [hc, hin]

theorem SendPacket_open (c : Conn) (pk : Packet) (hc : c.closed = false) :
    c.SendPacket pk = (none, { c with sent := c.sent ++ [pk] }) := by
  unfold Conn.SendPacket
  simp [hc]

/-! ## Lemmas on the login loop -/

theorem handleLoginLoop_other (codec : Codec) (pc : ProxyConn) (pk : Unknown)
    (rest : List Unknown) (hd : pc.dialConn.closed = false)
    (hup : pc.dialConn.incoming = pk :: rest)
    (h1 : pk.id ≠ 1) (h2 : pk.id ≠ 2) (h3 : pk.id ≠ 3) :
    handleLoginLoop codec pc =
      handleLoginLoop codec { pc with dialConn := { pc.dialConn with incoming := rest } } := by
  rw [handleLoginLoop]
  split
  · rename_i err d h
    rw [ReadPacket_cons _ pk rest hd hup] at h
    simp at h
  · rename_i pk1 d h
    rw [ReadPacket_cons _ pk rest hd hup] at h
    simp only [Prod.mk.injEq, Except.ok.injEq] at h
    obtain ⟨hpk, hd1⟩ := h
    subst hpk
    subst hd1
    simp [h1, h2, h3]


theorem handleLoginLoop_encryption (codec : Codec) (pc : ProxyConn) (pk : Unknown)
    (rest : List Unknown) (hd : pc.dialConn.closed = false)
    (hup : pc.dialConn.incoming = pk :: rest) (h1 : pk.id = 1) :
    handleLoginLoop codec pc =
      ({ pc with
          dialConn := { pc.dialConn with incoming := rest, closed := true },
          conn := { pc.conn with closed := true } },
        some (GoError.errorf "online mode is not supported")) := by
  rw [handleLoginLoop]
  split
  · rename_i err d h
    rw [ReadPacket_cons _ pk rest hd hup] at h
    simp at h
  · rename_i pk1 d h
    rw [ReadPacket_cons _ pk rest hd hup] at h
    simp only [Prod.mk.injEq, Except.ok.injEq] at h
    obtain ⟨hpk, hd1⟩ := h
    subst hpk
    subst hd1
    simp [h1, Conn.Close]

theorem handleLoginLoop_success (codec : Codec) (pc : ProxyConn) (pk : Unknown)
    (rest : List Unknown) (l : LoginSuccess) (hd : pc.dialConn.closed = false)
    (hc : pc.conn.closed = false)
    (hup : pc.dialConn.incoming = pk :: rest) (h2 : pk.id = 2)
    (hl : codec.LoginSuccess pk.Payload = Except.ok l) :
    handleLoginLoop codec pc =
      ({ pc with
          dialConn := { pc.dialConn with
            incoming := rest, name := l.Name, uuid := l.UUID, properties := l.Properties },
          conn := { pc.conn with
            sent := pc.conn.sent ++ [Packet.loginSuccess l],
            name := l.Name, uuid := l.UUID, properties := l.Properties } },
        none) := by
  rw [handleLoginLoop]
  split
  · rename_i err d h
    rw [ReadPacket_cons _ pk rest hd hup] at h
    simp at h
  · rename_i pk1 d h
    rw [ReadPacket_cons _ pk rest hd hup] at h
    simp only [Prod.mk.injEq, Except.ok.injEq] at h
    obtain ⟨hpk, hd1⟩ := h
    subst hpk
    subst hd1
    simp [h2, hl, Conn.SendPacket, hc]

theorem handleLoginLoop_compression (codec : Codec) (pc : ProxyConn) (pk : Unknown)
    (rest : List Unknown) (com : SetCompression) (hd : pc.dialConn.closed = false)
    (hc : pc.conn.closed = false)
    (hup : pc.dialConn.incoming = pk :: rest) (h3 : pk.id = 3)
    (hcom : codec.SetCompression pk.Payload = Except.ok com) :
    handleLoginLoop codec pc =
      handleLoginLoop codec
        { pc with
          dialConn := { pc.dialConn with incoming := rest, compression := some com.Threshold },
          conn := { pc.conn with
            sent := pc.conn.sent ++ [Packet.setCompression com],
            compression := some com.Threshold } } := by
  rw [handleLoginLoop]
  split
  · rename_i err d h
    rw [ReadPacket_cons _ pk rest hd hup] at h
    simp at h
  · rename_i pk1 d h
    rw [ReadPacket_cons _ pk rest hd hup] at h
    simp only [Prod.mk.injEq, Except.ok.injEq] at h
    obtain ⟨hpk, hd1⟩ := h
    subst hpk
    subst hd1
    simp [h3, hcom, Conn.SendPacket, hc, Conn.enableCompression]

theorem handleLogin_loginStart (codec : Codec) (pc : ProxyConn) (raw : Unknown)
    (rest : List Unknown) (ls : LoginStart) (hc : pc.conn.closed = false)
    (hd : pc.dialConn.closed = false)
    (hin : pc.conn.incoming = raw :: rest) (hls : codec.LoginStart raw.Payload = Except.ok ls) :
    handleLogin codec pc =
      handleLoginLoop codec
        { pc with
          dialConn := { pc.dialConn with sent := pc.dialConn.sent ++ [Packet.loginStart ls] },
          conn := { pc.conn with incoming := rest } } := by
  unfold handleLogin Conn.DecodePacket
  rw [ReadPacket_cons _ raw rest hc hin]
  simp [hls, SendPacket_open _ _ hd]

/-! ## The claims on the login phase -/

/-- C2: when the client sends LoginStart and the upstream then sends SetCompression
with threshold `t` followed by LoginSuccess with identity `l`, `handleLogin` returns no
error; LoginStart has been sent to the upstream; the client has been sent
SetCompression and then LoginSuccess; both Connections have compression set to `t` and
hold the name, UUID and properties of `l`; nothing else has changed. -/
theorem handleLogin_compression_then_success (codec : Codec) (pc : ProxyConn)
    (rawStart : Unknown) (restC : List Unknown) (ls : LoginStart)
    (rawCom rawSuc : Unknown) (restS : List Unknown) (t : Int) (l : LoginSuccess)
    (hc : pc.conn.closed = false) (hd : pc.dialConn.closed = false)
    (hin : pc.conn.incoming = rawStart :: restC)
    (hls : codec.LoginStart rawStart.Payload = Except.ok ls)
    (hup : pc.dialConn.incoming = rawCom :: rawSuc :: restS)
    (hid3 : rawCom.id = 3)
    (hcom : codec.SetCompression rawCom.Payload = Except.ok { Threshold := t })
    (hid2 : rawSuc.id = 2)
    (hsuc : codec.LoginSuccess rawSuc.Payload = Except.ok l) :
    handleLogin codec pc =
      ({ pc with
          dialConn := { pc.dialConn with
            incoming := restS,
            sent := pc.dialConn.sent ++ [Packet.loginStart ls],
            compression := some t,
            name := l.Name, uuid := l.UUID, properties := l.Properties },
          conn := { pc.conn with
            incoming := restC,
            sent := pc.conn.sent ++
              [Packet.setCompression { Threshold := t }, Packet.loginSuccess l],
            compression := some t,
            name := l.Name, uuid := l.UUID, properties := l.Properties } },
        none) := by
  have e1 := handleLogin_loginStart codec pc rawStart restC ls hc hd hin hls
  have e2 := handleLoginLoop_compression codec
    { pc with
      dialConn := { pc.dialConn with sent := pc.dialConn.sent ++ [Packet.loginStart ls] },
      conn := { pc.conn with incoming := restC } }
    rawCom (rawSuc :: restS) { Threshold := t } hd hc hup hid3 hcom
  have e3 := handleLoginLoop_success codec
    { pc with
      dialConn := { pc.dialConn with
        incoming := rawSuc :: restS,
        sent := pc.dialConn.sent ++ [Packet.loginStart ls],
        compression := some t },
      conn := { pc.conn with
        incoming := restC,
        sent := pc.conn.sent ++ [Packet.setCompression { Threshold := t }],
        compression := some t } }
    rawSuc restS l hd hc rfl hid2 hsuc
  refine e1.trans (e2.trans (e3.trans ?_))
  simp

/-- C3: when the first packet read from the upstream after LoginStart was forwarded has
ID 0x01, `handleLogin` returns the error "online mode is not supported", both
Connections are closed, and nothing has been sent to the client. -/
theorem handleLogin_encryption_request (codec : Codec) (pc : ProxyConn)
    (rawStart : Unknown) (restC : List Unknown) (ls : LoginStart)
    (rawEnc : Unknown) (restS : List Unknown)
    (hc : pc.conn.closed = false) (hd : pc.dialConn.closed = false)
    (hin : pc.conn.incoming = rawStart :: restC)
    (hls : codec.LoginStart rawStart.Payload = Except.ok ls)
    (hup : pc.dialConn.incoming = rawEnc :: restS)
    (hid : rawEnc.id = 1) :
    (handleLogin codec pc).2 = some (GoError.errorf "online mode is not supported") ∧
    (handleLogin codec pc).1.dialConn.closed = true ∧
    (handleLogin codec pc).1.conn.closed = true ∧
    (handleLogin codec pc).1.conn.sent = pc.conn.sent ∧
    (handleLogin codec pc).1.dialConn.sent = pc.dialConn.sent ++ [Packet.loginStart ls] := by
  have e1 := handleLogin_loginStart codec pc rawStart restC ls hc hd hin hls
  have e2 := handleLoginLoop_encryption codec
    { pc with
      dialConn := { pc.dialConn with sent := pc.dialConn.sent ++ [Packet.loginStart ls] },
      conn := { pc.conn with incoming := restC } }
    rawEnc restS hd hup hid
  rw [e1.trans e2]
  simp


/-- The conclusion of C2 at the session whose upstream delivers SetCompression with
threshold 64 and then LoginSuccess for Alice. -/
theorem handleLogin_compression_then_success_witness :
    (loginSession [{ id := 3, Payload := [64] }, { id := 2, Payload := [65] }]).conn.closed
      = false ∧
    sampleCodec.SetCompression [64] = Except.ok { Threshold := 64 } ∧
    handleLogin sampleCodec
        (loginSession [{ id := 3, Payload := [64] }, { id := 2, Payload := [65] }]) =
      ({ dialConn :=
           { incoming := [],
             sent := [Packet.loginStart { Name := "Alice", UUID := List.replicate 16 65 }],
             closed := false, compression := some 64, Pool := none, name := "Alice",
             uuid := List.replicate 16 65, properties := [] },
         conn :=
           { incoming := [],
             sent := [Packet.setCompression { Threshold := 64 },
               Packet.loginSuccess
                 { UUID := List.replicate 16 65, Name := "Alice", Properties := [] }],
             closed := false, compression := some 64, Pool := none, name := "Alice",
             uuid := List.replicate 16 65, properties := [] },
         targetAddr := "upstream:25565" },
        none) :=
  ⟨rfl, rfl,
    handleLogin_compression_then_success sampleCodec
      (loginSession [{ id := 3, Payload := [64] }, { id := 2, Payload := [65] }])
      { id := 0, Payload := [65] } [] { Name := "Alice", UUID := List.replicate 16 65 }
      { id := 3, Payload := [64] } { id := 2, Payload := [65] } [] 64
      { UUID := List.replicate 16 65, Name := "Alice", Properties := [] }
      rfl rfl rfl rfl rfl rfl rfl rfl rfl⟩

/-- The conclusion of C3 at the session whose upstream delivers an EncryptionRequest
first. -/
theorem handleLogin_encryption_request_witness :
    (loginSession [{ id := 1, Payload := [] }]).dialConn.incoming
      = [{ id := 1, Payload := [] }] ∧
    (handleLogin sampleCodec (loginSession [{ id := 1, Payload := [] }])).2 =
      some (GoError.errorf "online mode is not supported") ∧
    (handleLogin sampleCodec (loginSession [{ id := 1, Payload := [] }])).1.dialConn.closed
      = true ∧
    (handleLogin sampleCodec (loginSession [{ id := 1, Payload := [] }])).1.conn.closed
      = true ∧
    (handleLogin sampleCodec (loginSession [{ id := 1, Payload := [] }])).1.conn.sent = [] :=
  have h := handleLogin_encryption_request sampleCodec
    (loginSession [{ id := 1, Payload := [] }])
    { id := 0, Payload := [65] } [] { Name := "Alice", UUID := List.replicate 16 65 }
    { id := 1, Payload := [] } [] rfl rfl rfl rfl rfl rfl
  ⟨rfl, h.1, h.2.1, h.2.2.1, h.2.2.2.1⟩

/-- C4, as stated, fails: the upstream delivers a packet with ID 0x04 and then a
LoginSuccess; `handleLogin` reads past the first packet and returns no error, with the
LoginSuccess forwarded to the client. -/
theorem handleLogin_other_id_not_fatal :
    (handleLogin sampleCodec
        (loginSession [{ id := 4, Payload := [] }, { id := 2, Payload := [65] }])).2 = none ∧
    (handleLogin sampleCodec
        (loginSession [{ id := 4, Payload := [] }, { id := 2, Payload := [65] }])).1.conn.sent =
      [Packet.loginSuccess { UUID := List.replicate 16 65, Name := "Alice", Properties := [] }] ∧
    (handleLogin sampleCodec
        (loginSession [{ id := 4, Payload := [] }, { id := 2, Payload := [65] }])).1.dialConn.incoming
      = [] := by
  have e1 := handleLogin_loginStart sampleCodec
    (loginSession [{ id := 4, Payload := [] }, { id := 2, Payload := [65] }])
    { id := 0, Payload := [65] } [] { Name := "Alice", UUID := List.replicate 16 65 }
    rfl rfl rfl rfl
  rw [e1]
  simp [handleLoginLoop, Conn.ReadPacket, Conn.SendPacket, loginSession, freshConn, sampleCodec]

/-- C4, amended: packets read from the upstream whose ID is none of 0x01, 0x02, 0x03
are skipped.  Nothing is sent, no field of either Connection other than the read
position changes, no error is raised, and the loop goes on with the packet after
them. -/
theorem handleLoginLoop_skips_other_ids (codec : Codec) (skipped rest : List Unknown)
    (pc : ProxyConn) (hd : pc.dialConn.closed = false)
    (hup : pc.dialConn.incoming = skipped ++ rest)
    (hid : ∀ pk ∈ skipped, pk.id ≠ 1 ∧ pk.id ≠ 2 ∧ pk.id ≠ 3) :
    handleLoginLoop codec pc =
      handleLoginLoop codec { pc with dialConn := { pc.dialConn with incoming := rest } } := by
  induction skipped generalizing pc with
  | nil =>
    simp only [List.nil_append] at hup
    rw [← hup]
  | cons pk more ih =>
    have hpk := hid pk (List.mem_cons_self _ _)
    have e1 := handleLoginLoop_other codec pc pk (more ++ rest) hd hup hpk.1 hpk.2.1 hpk.2.2
    have e2 := ih { pc with dialConn := { pc.dialConn with incoming := more ++ rest } } hd rfl
      (fun q hq => hid q (List.mem_cons_of_mem _ hq))
    exact e1.trans e2

/-- The amended C4 at an upstream that delivers two packets with IDs 0x04 and 0x00
before an EncryptionRequest. -/
theorem handleLoginLoop_skips_other_ids_witness :
    (∀ pk ∈ [({ id := 4, Payload := [] } : Unknown), { id := 0, Payload := [7] }],
      pk.id ≠ 1 ∧ pk.id ≠ 2 ∧ pk.id ≠ 3) ∧
    handleLoginLoop sampleCodec
        (loginSession [{ id := 4, Payload := [] }, { id := 0, Payload := [7] },
          { id := 1, Payload := [] }]) =
      handleLoginLoop sampleCodec
        { loginSession [{ id := 4, Payload := [] }, { id := 0, Payload := [7] },
            { id := 1, Payload := [] }] with
          dialConn := { (loginSession [{ id := 4, Payload := [] }, { id := 0, Payload := [7] },
            { id := 1, Payload := [] }]).dialConn with
            incoming := [{ id := 1, Payload := [] }] } } :=
  ⟨by decide,
    handleLoginLoop_skips_other_ids sampleCodec
      [{ id := 4, Payload := [] }, { id := 0, Payload := [7] }] [{ id := 1, Payload := [] }]
      (loginSession [{ id := 4, Payload := [] }, { id := 0, Payload := [7] },
          { id := 1, Payload := [] }])
      rfl rfl (by decide)⟩

/-- C5 fails on the code: the client asks for login, the upstream answers with a
LoginSuccess whose payload does not decode; `handleLogin` returns an error and `start`
returns with both Connections still open. -/
theorem start_login_failure_leaves_connections_open :
    (start (sampleEnv [{ id := 2, Payload := [] }]) plainConfig [] ()
        (freshConn [{ id := 0, Payload := [2] }, { id := 0, Payload := [65] }])
        "upstream:25565").loginErr =
      some (GoError.errorfV (GoError.lib "EOF") " decoding login success packet") ∧
    (start (sampleEnv [{ id := 2, Payload := [] }]) plainConfig [] ()
        (freshConn [{ id := 0, Payload := [2] }, { id := 0, Payload := [65] }])
        "upstream:25565").conn.closed = false ∧
    (start (sampleEnv [{ id := 2, Payload := [] }]) plainConfig [] ()
        (freshConn [{ id := 0, Payload := [2] }, { id := 0, Payload := [65] }])
        "upstream:25565").dialConn.map (fun d => d.closed) = some false := by
  simp [start, handleLogin, handleLoginLoop, Conn.DecodePacket, Conn.ReadPacket,
    Conn.SendPacket, sampleEnv, freshConn, sampleCodec]


/-! ## Lemmas on the relay loops -/

theorem clientToServerStep_nil {Msg σ : Type} (cfg : ProxyConfig Msg σ) (s : Session σ)
    (hc : s.pc.conn.closed = false) (hin : s.pc.conn.incoming = []) :
    clientToServerStep cfg s = LoopStep.done s := by
  unfold clientToServerStep
  rw [ReadPacket_nil _ hc hin]

theorem clientToServerStep_cons_none {Msg σ : Type} (cfg : ProxyConfig Msg σ) (s : Session σ)
    (raw : Unknown) (rest : List Unknown)
    (hc : s.pc.conn.closed = false) (hd : s.pc.dialConn.closed = false)
    (hin : s.pc.conn.incoming = raw :: rest) (hcfg : cfg.OnReceive = none) :
    clientToServerStep cfg s =
      LoopStep.next { s with pc := { s.pc with
        conn := { s.pc.conn with incoming := rest },
        dialConn := { s.pc.dialConn with
          sent := s.pc.dialConn.sent ++ [Packet.unknown raw] } } } := by
  unfold clientToServerStep
  rw [ReadPacket_cons _ raw rest hc hin]
  simp [hcfg, Conn.SendPacket, hd]

/-- A pass of the client-to-server loop on a frame, when `OnReceive` is set and writes
nothing in this call. -/
theorem clientToServerStep_cons_some {Msg σ : Type} (cfg : ProxyConfig Msg σ) (s : Session σ)
    (raw : Unknown) (rest : List Unknown)
    (onReceive : σ → ProxyConn → Packet → Bool → HookResult σ)
    (pc1 : ProxyConn) (res : HookResult σ)
    (hc : s.pc.conn.closed = false) (hd : s.pc.dialConn.closed = false)
    (hin : s.pc.conn.incoming = raw :: rest) (hcfg : cfg.OnReceive = some onReceive)
    (hpc1 : pc1 = { s.pc with conn := { s.pc.conn with incoming := rest } })
    (hres : res = onReceive s.hook pc1 (Packet.unknown raw) false)
    (hquiet : res.sends = []) :
    clientToServerStep cfg s =
      LoopStep.next
        { pc := { s.pc with
            conn := { s.pc.conn with incoming := rest },
            dialConn := { s.pc.dialConn with
              sent := s.pc.dialConn.sent ++
                (if res.keep then [Packet.unknown raw] else []) } },
          hook := res.state,
          calls := s.calls ++
            [{ state := s.hook, pc := pc1, pk := Packet.unknown raw, fromServer := false,
               result := res }] } := by
  subst hpc1
  unfold clientToServerStep
  rw [ReadPacket_cons _ raw rest hc hin]
  simp only [hcfg, Session.OnReceive, ← hres, hquiet, List.foldl_nil]
  cases hk : res.keep
  · simp
  · simp [Conn.SendPacket, hd]

theorem serverToClientStep_nil {Msg σ : Type} (cfg : ProxyConfig Msg σ) (s : Session σ)
    (hd : s.pc.dialConn.closed = false) (hin : s.pc.dialConn.incoming = []) :
    serverToClientStep cfg s = LoopStep.done s := by
  unfold serverToClientStep
  rw [ReadPacket_nil _ hd hin]

theorem serverToClientStep_cons_none {Msg σ : Type} (cfg : ProxyConfig Msg σ) (s : Session σ)
    (raw : Unknown) (rest : List Unknown)
    (hc : s.pc.conn.closed = false) (hd : s.pc.dialConn.closed = false)
    (hin : s.pc.dialConn.incoming = raw :: rest) (hcfg : cfg.OnReceive = none) :
    serverToClientStep cfg s =
      LoopStep.next { s with pc := { s.pc with
        dialConn := { s.pc.dialConn with incoming := rest },
        conn := { s.pc.conn with sent := s.pc.conn.sent ++ [Packet.unknown raw] } } } := by
  unfold serverToClientStep
  rw [ReadPacket_cons _ raw rest hd hin]
  simp [hcfg, Conn.SendPacket, hc]

/-- A pass of the server-to-client loop on a frame, when `OnReceive` is set and writes
nothing in this call. -/
theorem serverToClientStep_cons_some {Msg σ : Type} (cfg : ProxyConfig Msg σ) (s : Session σ)
    (raw : Unknown) (rest : List Unknown)
    (onReceive : σ → ProxyConn → Packet → Bool → HookResult σ)
    (pc1 : ProxyConn) (res : HookResult σ)
    (hc : s.pc.conn.closed = false) (hd : s.pc.dialConn.closed = false)
    (hin : s.pc.dialConn.incoming = raw :: rest) (hcfg : cfg.OnReceive = some onReceive)
    (hpc1 : pc1 = { s.pc with dialConn := { s.pc.dialConn with incoming := rest } })
    (hres : res = onReceive s.hook pc1 (Packet.unknown raw) true)
    (hquiet : res.sends = []) :
    serverToClientStep cfg s =
      LoopStep.next
        { pc := { s.pc with
            dialConn := { s.pc.dialConn with incoming := rest },
            conn := { s.pc.conn with
              sent := s.pc.conn.sent ++ (if res.keep then [Packet.unknown raw] else []) } },
          hook := res.state,
          calls := s.calls ++
            [{ state := s.hook, pc := pc1, pk := Packet.unknown raw, fromServer := true,
               result := res }] } := by
  subst hpc1
  unfold serverToClientStep
  rw [ReadPacket_cons _ raw rest hd hin]
  simp only [hcfg, Session.OnReceive, ← hres, hquiet, List.foldl_nil]
  cases hk : res.keep
  · simp
  · simp [Conn.SendPacket, hc]

theorem offered_append_singleton {σ : Type} (calls : List (HookCall σ)) (c : HookCall σ)
    (b : Bool) :
    offered (calls ++ [c]) b = offered calls b ++ (if c.fromServer = b then [c.pk] else []) := by
  unfold offered
  by_cases h : c.fromServer = b <;> simp [List.filter_append, List.filter_cons, h]

theorem kept_append_singleton {σ : Type} (calls : List (HookCall σ)) (c : HookCall σ)
    (b : Bool) :
    kept (calls ++ [c]) b =
      kept calls b ++ (if c.fromServer = b ∧ c.result.keep = true then [c.pk] else []) := by
  unfold kept
  by_cases h : c.fromServer = b <;> by_cases hk : c.result.keep = true <;>
    simp [List.filter_append, List.filter_cons, h, hk]

theorem Replayed_append_singleton {σ : Type}
    (f : σ → ProxyConn → Packet → Bool → HookResult σ) (cs : List (HookCall σ))
    (st mid : σ) (c : HookCall σ) (h : Replayed f st cs mid) (h1 : c.state = mid)
    (h2 : c.result = f c.state c.pc c.pk c.fromServer) :
    Replayed f st (cs ++ [c]) c.result.state := by
  induction cs generalizing st with
  | nil =>
    simp only [Replayed] at h
    simp only [List.nil_append, Replayed]
    exact ⟨h1.trans h, h2, trivial⟩
  | cons d ds ih =>
    simp only [Replayed] at h
    simp only [List.cons_append, Replayed]
    exact ⟨h.1, h.2.1, ih _ h.2.2⟩

/-- One pass of the client-to-server loop keeps both Connections open and keeps the
relay property; if the loop has not returned, one more frame of the client is read. -/
theorem relayStep_client {Msg σ : Type} (cfg : ProxyConfig Msg σ) (s0 : Session σ)
    (r : Relay σ) (hq : SendsNothing cfg)
    (hc : r.s.pc.conn.closed = false) (hd : r.s.pc.dialConn.closed = false)
    (hinv : Relayed cfg s0 r) (hrun : r.clientLoop = true) :
    (relayStep cfg r Turn.client).s.pc.conn.closed = false ∧
    (relayStep cfg r Turn.client).s.pc.dialConn.closed = false ∧
    Relayed cfg s0 (relayStep cfg r Turn.client) ∧
    (relayStep cfg r Turn.client).serverLoop = r.serverLoop ∧
    ((relayStep cfg r Turn.client).clientLoop = true →
      (relayStep cfg r Turn.client).s.pc.conn.incoming.length + 1 =
        r.s.pc.conn.incoming.length) := by
  obtain ⟨readC, readS, calls, h1, h2, h3, h4, h5, h6⟩ := hinv
  cases hin : r.s.pc.conn.incoming with
  | nil =>
    have hstep := clientToServerStep_nil cfg r.s hc hin
    have hr : relayStep cfg r Turn.client = { r with clientLoop := false } := by
      simp [relayStep, hrun, hstep]
    rw [hr]
    exact ⟨hc, hd, ⟨readC, readS, calls, h1, h2, h3, h4, fun _ => hin, h6⟩, rfl,
      fun h => absurd h (by simp)⟩
  | cons raw rest =>
    cases hcfg : cfg.OnReceive with
    | none =>
      have hstep := clientToServerStep_cons_none cfg r.s raw rest hc hd hin hcfg
      have hr : relayStep cfg r Turn.client = { r with s := { r.s with pc := { r.s.pc with
          conn := { r.s.pc.conn with incoming := rest },
          dialConn := { r.s.pc.dialConn with
            sent := r.s.pc.dialConn.sent ++ [Packet.unknown raw] } } } } := by
        simp [relayStep, hrun, hstep]
      rw [hr]
      rw [hcfg] at h4
      obtain ⟨h4a, h4h, h4b, h4c⟩ := h4
      refine ⟨hc, hd, ⟨readC ++ [raw], readS, calls, ?_, h2, h3, ?_, ?_, h6⟩, rfl, ?_⟩
      · simp [h1, hin]
      · rw [hcfg]
        refine ⟨h4a, h4h, ?_, h4c⟩
        simp [h4b]
      · intro hfalse
        exact absurd (hrun.symm.trans hfalse) (by simp)
      · intro _
        simp [hin]
    | some onReceive =>
      have hstep := clientToServerStep_cons_some cfg r.s raw rest onReceive
        { r.s.pc with conn := { r.s.pc.conn with incoming := rest } }
        (onReceive r.s.hook { r.s.pc with conn := { r.s.pc.conn with incoming := rest } }
          (Packet.unknown raw) false)
        hc hd hin hcfg rfl rfl (hq onReceive hcfg _ _ _ _)
      generalize hres : onReceive r.s.hook
        { r.s.pc with conn := { r.s.pc.conn with incoming := rest } }
        (Packet.unknown raw) false = res at hstep
      have hr : relayStep cfg r Turn.client = { r with s :=
          { pc := { r.s.pc with
              conn := { r.s.pc.conn with incoming := rest },
              dialConn := { r.s.pc.dialConn with
                sent := r.s.pc.dialConn.sent ++
                  (if res.keep then [Packet.unknown raw] else []) } },
            hook := res.state,
            calls := r.s.calls ++
              [{ state := r.s.hook,
                 pc := { r.s.pc with conn := { r.s.pc.conn with incoming := rest } },
                 pk := Packet.unknown raw, fromServer := false, result := res }] } } := by
        simp [relayStep, hrun, hstep]
      rw [hr]
      rw [hcfg] at h4
      obtain ⟨h4r, h4a, h4b, h4c, h4d⟩ := h4
      refine ⟨hc, hd, ⟨readC ++ [raw], readS,
        calls ++ [{ state := r.s.hook,
                    pc := { r.s.pc with conn := { r.s.pc.conn with incoming := rest } },
                    pk := Packet.unknown raw, fromServer := false, result := res }],
        ?_, h2, ?_, ?_, ?_, h6⟩, rfl, ?_⟩
      · simp [h1, hin]
      · simp [h3]
      · rw [hcfg]
        refine ⟨?_, ?_, ?_, ?_, ?_⟩
        · exact Replayed_append_singleton onReceive calls s0.hook r.s.hook
            { state := r.s.hook,
              pc := { r.s.pc with conn := { r.s.pc.conn with incoming := rest } },
              pk := Packet.unknown raw, fromServer := false, result := res }
            h4r rfl hres.symm
        · simp [offered_append_singleton, h4a]
        · simp [offered_append_singleton, h4b]
        · cases hk : res.keep <;> simp [kept_append_singleton, h4c, hk]
        · simp [kept_append_singleton, h4d]
      · intro hfalse
        exact absurd (hrun.symm.trans hfalse) (by simp)
      · intro _
        simp [hin]

/-- One pass of the server-to-client loop keeps both Connections open and keeps the
relay property; it leaves the client-to-server loop and the frames of the client
untouched. -/
theorem relayStep_server {Msg σ : Type} (cfg : ProxyConfig Msg σ) (s0 : Session σ)
    (r : Relay σ) (hq : SendsNothing cfg)
    (hc : r.s.pc.conn.closed = false) (hd : r.s.pc.dialConn.closed = false)
    (hinv : Relayed cfg s0 r) (hrun : r.serverLoop = true) :
    (relayStep cfg r Turn.server).s.pc.conn.closed = false ∧
    (relayStep cfg r Turn.server).s.pc.dialConn.closed = false ∧
    Relayed cfg s0 (relayStep cfg r Turn.server) ∧
    (relayStep cfg r Turn.server).clientLoop = r.clientLoop ∧
    (relayStep cfg r Turn.server).s.pc.conn.incoming = r.s.pc.conn.incoming ∧
    ((relayStep cfg r Turn.server).serverLoop = true →
      (relayStep cfg r Turn.server).s.pc.dialConn.incoming.length + 1 =
        r.s.pc.dialConn.incoming.length) := by
  obtain ⟨readC, readS, calls, h1, h2, h3, h4, h5, h6⟩ := hinv
  cases hin : r.s.pc.dialConn.incoming with
  | nil =>
    have hstep := serverToClientStep_nil cfg r.s hd hin
    have hr : relayStep cfg r Turn.server = { r with serverLoop := false } := by
      simp [relayStep, hrun, hstep]
    rw [hr]
    exact ⟨hc, hd, ⟨readC, readS, calls, h1, h2, h3, h4, h5, fun _ => hin⟩, rfl, rfl,
      fun h => absurd h (by simp)⟩
  | cons raw rest =>
    cases hcfg : cfg.OnReceive with
    | none =>
      have hstep := serverToClientStep_cons_none cfg r.s raw rest hc hd hin hcfg
      have hr : relayStep cfg r Turn.server = { r with s := { r.s with pc := { r.s.pc with
          dialConn := { r.s.pc.dialConn with incoming := rest },
          conn := { r.s.pc.conn with
            sent := r.s.pc.conn.sent ++ [Packet.unknown raw] } } } } := by
        simp [relayStep, hrun, hstep]
      rw [hr]
      rw [hcfg] at h4
      obtain ⟨h4a, h4h, h4b, h4c⟩ := h4
      refine ⟨hc, hd, ⟨readC, readS ++ [raw], calls, h1, ?_, h3, ?_, h5, ?_⟩, rfl, rfl, ?_⟩
      · simp [h2, hin]
      · rw [hcfg]
        refine ⟨h4a, h4h, h4b, ?_⟩
        simp [h4c]
      · intro hfalse
        exact absurd (hrun.symm.trans hfalse) (by simp)
      · intro _
        simp [hin]
    | some onReceive =>
      have hstep := serverToClientStep_cons_some cfg r.s raw rest onReceive
        { r.s.pc with dialConn := { r.s.pc.dialConn with incoming := rest } }
        (onReceive r.s.hook { r.s.pc with dialConn := { r.s.pc.dialConn with incoming := rest } }
          (Packet.unknown raw) true)
        hc hd hin hcfg rfl rfl (hq onReceive hcfg _ _ _ _)
      generalize hres : onReceive r.s.hook
        { r.s.pc with dialConn := { r.s.pc.dialConn with incoming := rest } }
        (Packet.unknown raw) true = res at hstep
      have hr : relayStep cfg r Turn.server = { r with s :=
          { pc := { r.s.pc with
              dialConn := { r.s.pc.dialConn with incoming := rest },
              conn := { r.s.pc.conn with
                sent := r.s.pc.conn.sent ++ (if res.keep then [Packet.unknown raw] else []) } },
            hook := res.state,
            calls := r.s.calls ++
              [{ state := r.s.hook,
                 pc := { r.s.pc with dialConn := { r.s.pc.dialConn with incoming := rest } },
                 pk := Packet.unknown raw, fromServer := true, result := res }] } } := by
        simp [relayStep, hrun, hstep]
      rw [hr]
      rw [hcfg] at h4
      obtain ⟨h4r, h4a, h4b, h4c, h4d⟩ := h4
      refine ⟨hc, hd, ⟨readC, readS ++ [raw],
        calls ++ [{ state := r.s.hook,
                    pc := { r.s.pc with dialConn := { r.s.pc.dialConn with incoming := rest } },
                    pk := Packet.unknown raw, fromServer := true, result := res }],
        h1, ?_, ?_, ?_, h5, ?_⟩, rfl, rfl, ?_⟩
      · simp [h2, hin]
      · simp [h3]
      · rw [hcfg]
        refine ⟨?_, ?_, ?_, ?_, ?_⟩
        · exact Replayed_append_singleton onReceive calls s0.hook r.s.hook
            { state := r.s.hook,
              pc := { r.s.pc with dialConn := { r.s.pc.dialConn with incoming := rest } },
              pk := Packet.unknown raw, fromServer := true, result := res }
            h4r rfl hres.symm
        · simp [offered_append_singleton, h4a]
        · simp [offered_append_singleton, h4b]
        · simp [kept_append_singleton, h4c]
        · cases hk : res.keep <;> simp [kept_append_singleton, h4d, hk]
      · intro hfalse
        exact absurd (hrun.symm.trans hfalse) (by simp)
      · intro _
        simp [hin]

/-- Any pass of either loop keeps both Connections open and keeps the relay
property. -/
theorem relayStep_preserves {Msg σ : Type} (cfg : ProxyConfig Msg σ) (s0 : Session σ)
    (r : Relay σ) (t : Turn) (hq : SendsNothing cfg) (hc : r.s.pc.conn.closed = false)
    (hd : r.s.pc.dialConn.closed = false) (hinv : Relayed cfg s0 r) :
    (relayStep cfg r t).s.pc.conn.closed = false ∧
    (relayStep cfg r t).s.pc.dialConn.closed = false ∧
    Relayed cfg s0 (relayStep cfg r t) ∧
    (relayStep cfg r t).s.pc.conn.incoming.length ≤ r.s.pc.conn.incoming.length := by
  cases t with
  | client =>
    cases hrun : r.clientLoop with
    | false =>
      have hr : relayStep cfg r Turn.client = r := by simp [relayStep, hrun]
      rw [hr]
      exact ⟨hc, hd, hinv, le_refl _⟩
    | true =>
      obtain ⟨a, b, c, _, e⟩ := relayStep_client cfg s0 r hq hc hd hinv hrun
      refine ⟨a, b, c, ?_⟩
      cases hrun2 : (relayStep cfg r Turn.client).clientLoop with
      | true => have := e hrun2; omega
      | false =>
        obtain ⟨_, _, _, _, _, _, _, h5, _⟩ := c
        rw [h5 hrun2]
        simp
  | server =>
    cases hrun : r.serverLoop with
    | false =>
      have hr : relayStep cfg r Turn.server = r := by simp [relayStep, hrun]
      rw [hr]
      exact ⟨hc, hd, hinv, le_refl _⟩
    | true =>
      obtain ⟨a, b, c, _, e, _⟩ := relayStep_server cfg s0 r hq hc hd hinv hrun
      exact ⟨a, b, c, le_of_eq (congrArg List.length e)⟩

/-- With more fuel than frames left on the client Connection, the client-to-server
loop running alone returns; it keeps both Connections open and keeps the relay
property, and it leaves the goroutine as it was. -/
theorem clientLoopAlone_returns {Msg σ : Type} (cfg : ProxyConfig Msg σ) (s0 : Session σ)
    (fuel : Nat) (r : Relay σ) (hq : SendsNothing cfg) (hc : r.s.pc.conn.closed = false)
    (hd : r.s.pc.dialConn.closed = false) (hinv : Relayed cfg s0 r)
    (hfuel : r.s.pc.conn.incoming.length < fuel) :
    (clientLoopAlone cfg fuel r).clientLoop = false ∧
    (clientLoopAlone cfg fuel r).s.pc.conn.closed = false ∧
    (clientLoopAlone cfg fuel r).s.pc.dialConn.closed = false ∧
    Relayed cfg s0 (clientLoopAlone cfg fuel r) := by
  induction fuel generalizing r with
  | zero => omega
  | succ fuel ih =>
    cases hrun : r.clientLoop with
    | false =>
      have hr : clientLoopAlone cfg (fuel + 1) r = r := by simp [clientLoopAlone, hrun]
      rw [hr]
      exact ⟨hrun, hc, hd, hinv⟩
    | true =>
      have hr : clientLoopAlone cfg (fuel + 1) r =
          clientLoopAlone cfg fuel (relayStep cfg r Turn.client) := by
        simp [clientLoopAlone, hrun]
      rw [hr]
      obtain ⟨a, b, c, _, e⟩ := relayStep_client cfg s0 r hq hc hd hinv hrun
      cases hrun2 : (relayStep cfg r Turn.client).clientLoop with
      | true =>
        have := e hrun2
        exact ih _ a b c (by omega)
      | false =>
        cases fuel with
        | zero =>
          have hz : clientLoopAlone cfg 0 (relayStep cfg r Turn.client) =
              relayStep cfg r Turn.client := by simp [clientLoopAlone]
          rw [hz]
          exact ⟨hrun2, a, b, c⟩
        | succ fuel =>
          have hz : clientLoopAlone cfg (fuel + 1) (relayStep cfg r Turn.client) =
              relayStep cfg r Turn.client := by simp [clientLoopAlone, hrun2]
          rw [hz]
          exact ⟨hrun2, a, b, c⟩

/-- Under any schedule `proxyRun` ends with the client-to-server loop returned, both
Connections open and the relay property kept. -/
theorem proxyRun_returns {Msg σ : Type} (cfg : ProxyConfig Msg σ) (s0 : Session σ)
    (sched : List Turn) (r : Relay σ) (hq : SendsNothing cfg) (hc : r.s.pc.conn.closed = false)
    (hd : r.s.pc.dialConn.closed = false) (hinv : Relayed cfg s0 r)
    (hrun : r.clientLoop = true) :
    (proxyRun cfg sched r).clientLoop = false ∧
    (proxyRun cfg sched r).s.pc.conn.closed = false ∧
    (proxyRun cfg sched r).s.pc.dialConn.closed = false ∧
    Relayed cfg s0 (proxyRun cfg sched r) := by
  induction sched generalizing r with
  | nil =>
    have hr : proxyRun cfg [] r =
        clientLoopAlone cfg (r.s.pc.conn.incoming.length + 1) r := by simp [proxyRun]
    rw [hr]
    exact clientLoopAlone_returns cfg s0 _ r hq hc hd hinv (Nat.lt_succ_self _)
  | cons t sched ih =>
    have hr : proxyRun cfg (t :: sched) r = proxyRun cfg sched (relayStep cfg r t) := by
      simp [proxyRun, hrun]
    rw [hr]
    obtain ⟨a, b, c, _⟩ := relayStep_preserves cfg s0 r t hq hc hd hinv
    cases hrun2 : (relayStep cfg r t).clientLoop with
    | true => exact ih _ a b c hrun2
    | false =>
      cases sched with
      | nil =>
        have hz : proxyRun cfg [] (relayStep cfg r t) = relayStep cfg r t := by
          simp [proxyRun, clientLoopAlone, hrun2]
        rw [hz]
        exact ⟨hrun2, a, b, c⟩
      | cons t2 sched =>
        have hz : proxyRun cfg (t2 :: sched) (relayStep cfg r t) = relayStep cfg r t := by
          simp [proxyRun, hrun2]
        rw [hz]
        exact ⟨hrun2, a, b, c⟩

/-- The relay property holds at the start of the relay. -/
theorem Relayed_start {Msg σ : Type} (cfg : ProxyConfig Msg σ) (s0 : Session σ)
    (r : Relay σ) (hs : r.s.pc.conn.incoming = s0.pc.conn.incoming)
    (hd : r.s.pc.dialConn = s0.pc.dialConn) (hsent : r.s.pc.conn.sent = s0.pc.conn.sent)
    (hcalls : r.s.calls = s0.calls) (hhook : r.s.hook = s0.hook) (h1 : r.clientLoop = true) (h2 : r.serverLoop = true) :
    Relayed cfg s0 r := by
  refine ⟨[], [], [], by simp [hs], by simp [hd], by simp [hcalls], ?_, ?_, ?_⟩
  · cases hcfg : cfg.OnReceive with
    | none => simp [hd, hsent, hhook]
    | some f => simp [hd, hsent, hhook, offered, kept, Replayed]
  · intro h; rw [h1] at h; exact absurd h (by simp)
  · intro h; rw [h2] at h; exact absurd h (by simp)


/-- With more fuel than frames left on the upstream Connection, the goroutine running
alone returns; it keeps both Connections open and keeps the relay property. -/
theorem serverLoopAlone_returns {Msg σ : Type} (cfg : ProxyConfig Msg σ) (s0 : Session σ)
    (fuel : Nat) (r : Relay σ) (hq : SendsNothing cfg) (hc : r.s.pc.conn.closed = false)
    (hd : r.s.pc.dialConn.closed = false) (hinv : Relayed cfg s0 r) :
    Relayed cfg s0 (serverLoopAlone cfg fuel r) ∧
    (serverLoopAlone cfg fuel r).clientLoop = r.clientLoop ∧
    (r.s.pc.dialConn.incoming.length < fuel → (serverLoopAlone cfg fuel r).serverLoop = false) := by
  induction fuel generalizing r with
  | zero =>
    have hz : serverLoopAlone cfg 0 r = r := by simp [serverLoopAlone]
    rw [hz]
    exact ⟨hinv, rfl, fun h => absurd h (by omega)⟩
  | succ fuel ih =>
    cases hrun : r.serverLoop with
    | false =>
      have hr : serverLoopAlone cfg (fuel + 1) r = r := by simp [serverLoopAlone, hrun]
      rw [hr]
      exact ⟨hinv, rfl, fun _ => hrun⟩
    | true =>
      have hr : serverLoopAlone cfg (fuel + 1) r =
          serverLoopAlone cfg fuel (relayStep cfg r Turn.server) := by
        simp [serverLoopAlone, hrun]
      rw [hr]
      obtain ⟨a, b, c, d, _, e⟩ := relayStep_server cfg s0 r hq hc hd hinv hrun
      obtain ⟨i1, i2, i3⟩ := ih _ a b c
      refine ⟨i1, i2.trans d, ?_⟩
      intro hlen
      cases hrun2 : (relayStep cfg r Turn.server).serverLoop with
      | true =>
        have := e hrun2
        exact i3 (by omega)
      | false =>
        cases fuel with
        | zero => simp [serverLoopAlone, hrun2]
        | succ fuel => simp [serverLoopAlone, hrun2]

/-- The call of `proxy` returns under every schedule, with both Connections open and
the relay property between the session it was given and the state it leaves. -/
theorem proxy_returns {Msg σ : Type} (cfg : ProxyConfig Msg σ) (sched : List Turn)
    (s : Session σ) (hq : SendsNothing cfg) (hc : s.pc.conn.closed = false)
    (hd : s.pc.dialConn.closed = false) :
    (proxy cfg sched s).clientLoop = false ∧
    (proxy cfg sched s).s.pc.conn.closed = false ∧
    (proxy cfg sched s).s.pc.dialConn.closed = false ∧
    Relayed cfg s (proxy cfg sched s) := by
  unfold proxy
  exact proxyRun_returns cfg s sched _ hq hc hd
    (Relayed_start cfg s _ rfl rfl rfl rfl rfl rfl rfl) rfl

/-! ## The claims on the relay -/

/-- The veto configuration writes nothing through the `*ProxyConn`. -/
theorem vetoConfig_sendsNothing : SendsNothing vetoConfig := by
  intro f hf st pc pk fromServer
  simp only [vetoConfig, Option.some.injEq] at hf
  subst hf
  cases pk <;> rfl

/-- C6, as stated, fails: `OnReceive` is handed the live `*ProxyConn` and may send
through it.  The closure of `replaceConfig` returns false for the plugin message read
from the client and sends a replacement with `SendServerPacket`; the upstream is then
sent a packet that was never read from the client, ahead of the one kept packet. -/
theorem proxy_hook_sends_unread_packet :
    offered (proxy replaceConfig [] replaceSession).s.calls false =
      [Packet.unknown { id := 0x17, Payload := [1] },
       Packet.unknown { id := 5, Payload := [2] }] ∧
    kept (proxy replaceConfig [] replaceSession).s.calls false =
      [Packet.unknown { id := 5, Payload := [2] }] ∧
    (proxy replaceConfig [] replaceSession).s.pc.dialConn.sent =
      [Packet.unknown { id := 0x17, Payload := [0] },
       Packet.unknown { id := 5, Payload := [2] }] := by
  decide

/-- C6, amended: for an `OnReceive` that writes nothing through the `*ProxyConn` (or
none), under every interleaving of the two loops of `proxy`, with both Connections
open so that every send succeeds: the call returns, and the relay property holds
between the session given and the state at the return, and it goes on holding while
the goroutine continues alone, which returns once it has read every frame of the
upstream.  By the relay property the recorded calls are the run of the closure itself,
one call per frame read, with `fromServer` true exactly for the frames read from the
server Connection; the packets sent on each destination are exactly the frames read
from its source for which the closure returned true (all of them when `OnReceive` is
nil), in reading order; and a loop returns only when no frame is left, so a dropped
packet does not end it. -/
theorem proxy_relays_in_order {Msg σ : Type} (cfg : ProxyConfig Msg σ) (sched : List Turn)
    (s : Session σ) (hq : SendsNothing cfg)
    (hc : s.pc.conn.closed = false) (hd : s.pc.dialConn.closed = false) :
    (proxy cfg sched s).clientLoop = false ∧
    Relayed cfg s (proxy cfg sched s) ∧
    (∀ fuel : Nat, Relayed cfg s (serverLoopAlone cfg fuel (proxy cfg sched s))) ∧
    (serverLoopAlone cfg (s.pc.dialConn.incoming.length + 1) (proxy cfg sched s)).serverLoop
      = false ∧
    (serverLoopAlone cfg (s.pc.dialConn.incoming.length + 1) (proxy cfg sched s)).clientLoop
      = false := by
  obtain ⟨h1, h2, h3, h4⟩ := proxy_returns cfg sched s hq hc hd
  refine ⟨h1, h4, fun fuel => (serverLoopAlone_returns cfg s fuel _ hq h2 h3 h4).1, ?_, ?_⟩
  · apply (serverLoopAlone_returns cfg s _ _ hq h2 h3 h4).2.2
    obtain ⟨readC, readS, calls, _, e2, _⟩ := h4
    have hlen := congrArg List.length e2
    simp only [List.length_append] at hlen
    omega
  · rw [(serverLoopAlone_returns cfg s _ _ hq h2 h3 h4).2.1]
    exact h1

/-- The amended C6 at the veto scenario, with the goroutine scheduled first and last:
the plugin messages are read, offered to the closure with the flag of their source,
and dropped; the other packets pass; the closure has counted four calls. -/
theorem proxy_relays_in_order_witness :
    SendsNothing vetoConfig ∧
    vetoSession.pc.conn.closed = false ∧
    vetoSession.pc.dialConn.closed = false ∧
    (proxy vetoConfig [Turn.server, Turn.client, Turn.client, Turn.server]
      vetoSession).clientLoop = false ∧
    Relayed vetoConfig vetoSession
      (proxy vetoConfig [Turn.server, Turn.client, Turn.client, Turn.server] vetoSession) ∧
    (proxy vetoConfig [Turn.server, Turn.client, Turn.client, Turn.server]
      vetoSession).s.pc.dialConn.sent = [Packet.unknown { id := 5, Payload := [2] }] ∧
    (proxy vetoConfig [Turn.server, Turn.client, Turn.client, Turn.server]
      vetoSession).s.pc.conn.sent = [Packet.unknown { id := 9, Payload := [4] }] ∧
    (proxy vetoConfig [Turn.server, Turn.client, Turn.client, Turn.server]
      vetoSession).s.calls.map (fun c => (c.pk, c.fromServer, c.result.keep)) =
      [(Packet.unknown { id := 0x17, Payload := [3] }, true, false),
       (Packet.unknown { id := 0x17, Payload := [1] }, false, false),
       (Packet.unknown { id := 5, Payload := [2] }, false, true),
       (Packet.unknown { id := 9, Payload := [4] }, true, true)] ∧
    (proxy vetoConfig [Turn.server, Turn.client, Turn.client, Turn.server]
      vetoSession).s.hook = 4 :=
  have h := proxy_relays_in_order vetoConfig
    [Turn.server, Turn.client, Turn.client, Turn.server] vetoSession
    vetoConfig_sendsNothing rfl rfl
  ⟨vetoConfig_sendsNothing, rfl, rfl, h.1, h.2.1, by decide, by decide, by decide, by decide⟩

/-- C1 fails on the code as written: the loop of line 57 ranges over
`m.PreviousMesages`, and `PlayerChatMessage` declares no field of that name, so for
every message and writer `Encode` is rejected by the compiler and writes nothing for
any entry of `m.PreviousMessages`, at the edge-case message as at any other.  With the
selector spelt `PreviousMessages` the same text builds and is the function
`PlayerChatMessage.Encode`. -/
theorem PlayerChatMessage_Encode_range_operand_undeclared :
    edgeCaseMessage.selectPrevious "PreviousMesages" = none ∧
    PlayerChatMessage.EncodeAsWritten plainChat edgeCaseMessage [] =
      Build.undefinedSelector "PreviousMesages" ∧
    (∀ {Msg : Type} (chat : ChatPkg Msg) (m : PlayerChatMessage) (w : Writer),
      PlayerChatMessage.EncodeAsWritten chat m w =
        Build.undefinedSelector "PreviousMesages") ∧
    (∀ {Msg : Type} (chat : ChatPkg Msg) (m : PlayerChatMessage) (w : Writer),
      PlayerChatMessage.EncodeRanging chat "PreviousMessages" m w =
        Build.built (PlayerChatMessage.Encode chat m w)) := by
  refine ⟨by decide, by decide, ?_, ?_⟩
  · intro Msg chat m w
    have hsel : m.selectPrevious "PreviousMesages" = none := by
      unfold PlayerChatMessage.selectPrevious
      rw [if_neg (by decide)]
    unfold PlayerChatMessage.EncodeAsWritten PlayerChatMessage.EncodeRanging
    rw [hsel]
  · intro Msg chat m w
    have hsel : m.selectPrevious "PreviousMessages" = some m.PreviousMessages := by
      unfold PlayerChatMessage.selectPrevious
      rw [if_pos rfl]
    unfold PlayerChatMessage.EncodeRanging PlayerChatMessage.Encode
    rw [hsel]

/-- With the operand of the `range` spelt as the declared field: around the previous
messages `Encode` writes a prefix and a suffix that do not depend on them, and between
the two, after their count, for every entry in order the varint `MessageID + 1` (the
`int32` sum of the source, which is the plain sum below the largest `int32`) followed
by the signature as a fixed-length byte array exactly when `MessageID` is -1.  So
`MessageID = -1` is written as varint 0 and then the signature, and `MessageID = 5` as
varint 6 and nothing more. -/
theorem Encode_previousMessages_declared_field {Msg : Type} (chat : ChatPkg Msg)
    (m : PlayerChatMessage) (w : Writer) :
    (∃ pre post : List WriteOp, ∀ prevs : List PreviousMessage,
      (∀ p ∈ prevs, InInt32 p.MessageID) →
      (PlayerChatMessage.Encode chat { m with PreviousMessages := prevs } w).1 =
        pre ++ WriteOp.varInt prevs.length :: prevs.flatMap previousMessageRule ++ post) ∧
    (∀ sig : Option (List Nat),
      previousMessageRule { MessageID := -1, Signature := sig } =
        [WriteOp.varInt 0, WriteOp.fixedByteArray sig] ∧
      previousMessageRule { MessageID := 5, Signature := sig } = [WriteOp.varInt 6]) ∧
    (∀ x : Int, InInt32 x → x ≠ 2147483647 → int32 (x + 1) = x + 1) := by
  refine ⟨⟨w ++ ([WriteOp.uuid m.Sender, WriteOp.varInt m.Index] ++
        optionalField m.MessageSignature.isSome [WriteOp.fixedByteArray m.MessageSignature] ++
        [WriteOp.string m.Message, WriteOp.int64 m.Timestamp, WriteOp.int64 m.Salt]),
      optionalField (decide (m.UnsignedContent ≠ "")) (unsignedContentPayload chat m) ++
        [WriteOp.varInt m.ChatType,
          WriteOp.string (chat.String (chat.NewMessage m.NetworkName))] ++
        optionalField (decide (m.NetworkTargetName ≠ ""))
          [WriteOp.string (chat.String (chat.NewMessage m.NetworkTargetName))], ?_⟩, ?_, ?_⟩
  · intro prevs hprevs
    rw [Encode_trace, flatMap_ops_eq_rule prevs hprevs]
    simp [unsignedContentPayload]
  · intro sig
    constructor <;> simp [previousMessageRule] <;> decide
  · intro x hx hne
    unfold InInt32 at hx
    unfold int32
    omega

/-- The rule above at a message with the two previous messages of the edge case. -/
theorem Encode_previousMessages_declared_field_instance :
    (∀ p ∈ [({ MessageID := -1, Signature := some [1, 2] } : PreviousMessage),
        { MessageID := 5, Signature := some [3] }], InInt32 p.MessageID) ∧
    ∃ pre post : List WriteOp,
      (PlayerChatMessage.Encode plainChat
        { emptySignatureMessage with
          PreviousMessages := [{ MessageID := -1, Signature := some [1, 2] },
            { MessageID := 5, Signature := some [3] }] } []).1 =
        pre ++ [WriteOp.varInt 2, WriteOp.varInt 0, WriteOp.fixedByteArray (some [1, 2]),
          WriteOp.varInt 6] ++ post := by
  refine ⟨by decide, ?_⟩
  obtain ⟨pre, post, h⟩ :=
    (Encode_previousMessages_declared_field plainChat emptySignatureMessage []).1
  refine ⟨pre, post, ?_⟩
  have h2 := h [{ MessageID := -1, Signature := some [1, 2] },
    { MessageID := 5, Signature := some [3] }] (by decide)
  rw [h2]
  simp [previousMessageRule]
  decide

/-- C8 fails on the code for `PluginMessage`: its `Decode` panics with "implement me"
for every packet and reader instead of returning `NotImplemented`, while
`PlayerChatMessage.Decode` returns `NotImplemented` and leaves the packet as it was. -/
theorem PluginMessage_Decode_panics :
    PluginMessage.Decode { Channel := "minecraft:brand", Data := some [1] } [2, 3] =
      Outcome.panicked "implement me" ∧
    (∀ (p : PluginMessage) (r : Reader),
      PluginMessage.Decode p r ≠ Outcome.returned (some GoError.NotImplemented)) ∧
    (∀ (m : PlayerChatMessage) (r : Reader),
      PlayerChatMessage.Decode m r = Outcome.returned (m, some GoError.NotImplemented)) := by
  refine ⟨rfl, ?_, fun _ _ => rfl⟩
  intro p r h
  simp [PluginMessage.Decode] at h

/-- C9, as stated, fails: a message whose signature is non-nil and of length zero is
written with the presence flag true, followed by the empty fixed-length array. -/
theorem PlayerChatMessage_Encode_empty_signature_present :
    emptySignatureMessage.MessageSignature = some [] ∧
    (PlayerChatMessage.Encode plainChat emptySignatureMessage []).1 =
      [WriteOp.uuid (List.replicate 16 0), WriteOp.varInt 0,
        WriteOp.bool true, WriteOp.fixedByteArray (some []),
        WriteOp.string "hi", WriteOp.int64 0, WriteOp.int64 0, WriteOp.varInt 0,
        WriteOp.bool false,
        WriteOp.varInt 0, WriteOp.string "n",
        WriteOp.bool false] := by
  decide

/-- C9, amended: `Encode` writes each of the three optional fields as one boolean
followed by the payload only when the boolean is true.  The boolean is false exactly
when MessageSignature is nil, respectively when UnsignedContent or NetworkTargetName is
the empty string; a non-nil signature of length zero is written as present.  The
payload of MessageSignature is the fixed-length signature, that of UnsignedContent the
content with the filter type (and the filter bits when the type is 2), that of
NetworkTargetName the name. -/
theorem PlayerChatMessage_Encode_optional_fields {Msg : Type} (chat : ChatPkg Msg)
    (m : PlayerChatMessage) (w : Writer) :
    (PlayerChatMessage.Encode chat m w).1 =
      w ++ [WriteOp.uuid m.Sender, WriteOp.varInt m.Index] ++
        optionalField (decide (m.MessageSignature ≠ none))
          [WriteOp.fixedByteArray m.MessageSignature] ++
        [WriteOp.string m.Message, WriteOp.int64 m.Timestamp, WriteOp.int64 m.Salt] ++
        WriteOp.varInt m.PreviousMessages.length ::
          m.PreviousMessages.flatMap previousMessageOps ++
        optionalField (decide (m.UnsignedContent ≠ "")) (unsignedContentPayload chat m) ++
        [WriteOp.varInt m.ChatType,
          WriteOp.string (chat.String (chat.NewMessage m.NetworkName))] ++
        optionalField (decide (m.NetworkTargetName ≠ ""))
          [WriteOp.string (chat.String (chat.NewMessage m.NetworkTargetName))] := by
  rw [Encode_trace]
  cases m.MessageSignature <;> simp

set_option maxRecDepth 100000 in
/-- C10 fails on the code: `NewStatus` encodes the status into the buffer twice, once
before the favicon is decided and once after, and never resets the buffer; `json`
returns the two documents one after the other.  At protocol 757, maximum 20 and
description "hi" the buffer holds the document without favicon and then the final
one, and so differs from the final document alone. -/
theorem NewStatus_json_two_documents :
    (∀ {Msg : Type} (env : StatusEnv Msg) (protocol max : Int) (desc : String),
      (NewStatus env protocol max desc).json =
        jsonDocument env (initialStatus env protocol max desc) ++
          jsonDocument env (NewStatus env protocol max desc).s) ∧
    (NewStatus sampleStatusEnv 757 20 "hi").json =
      (String.toList
        ("\x7b\"version\":\x7b\"name\":\"1.18.1\",\"protocol\":757\x7d," ++
          "\"players\":\x7b\"max\":20,\"online\":0,\"sample\":null\x7d," ++
          "\"description\":\x7b\"text\":\"hi\"\x7d,\"favicon\":\"\"\x7d\n" ++
          "\x7b\"version\":\x7b\"name\":\"1.18.1\",\"protocol\":757\x7d," ++
          "\"players\":\x7b\"max\":20,\"online\":0,\"sample\":null\x7d," ++
          "\"description\":\x7b\"text\":\"hi\"\x7d," ++
          "\"favicon\":\"data:image/png;base64,\"\x7d\n")).map Char.toNat ∧
    jsonDocument sampleStatusEnv (NewStatus sampleStatusEnv 757 20 "hi").s =
      (String.toList
        ("\x7b\"version\":\x7b\"name\":\"1.18.1\",\"protocol\":757\x7d," ++
          "\"players\":\x7b\"max\":20,\"online\":0,\"sample\":null\x7d," ++
          "\"description\":\x7b\"text\":\"hi\"\x7d," ++
          "\"favicon\":\"data:image/png;base64,\"\x7d\n")).map Char.toNat := by
  refine ⟨fun env protocol max desc => NewStatus_buf env protocol max desc, ?_, ?_⟩ <;>
    decide

end Minecraft
